import Mathlib

/-!
glpi-tui: a shallow embedding of the ticket client and its update loop

The development follows the three packages of the repository.

* `internal/domain/chamado.go`: the ticket, actor and followup records and the
  derived labels, dates and cleaned texts.
* `internal/api/client.go`: the HTTP client, as functions that return the
  result, the client afterwards and the list of requests that were sent.
* `internal/tui/model.go`: the Bubble Tea model, its `Update` and its `View`.

Go strings are modelled by `String` (valid Unicode text, which is what the JSON
decoder produces), Go `int` by `Int`, and a Go slice by `Slice α`, an optional
list whose `none` is the nil slice.
-/

namespace Glpi

/-! ## Go values -/

/-- A Go slice: `none` is the nil slice, `some xs` a non-nil slice holding `xs`. -/
abbrev Slice (α : Type) := Option (List α)

/-- The elements of a slice, as `range` visits them; a nil slice has none. -/
def Slice.elems {α : Type} : Slice α → List α
  | none => []
  | some xs => xs

/-- The value of `fmt.Sprintf("%d", n)` and of `fmt.Sprint(n)` for an `int`. -/
def sprintInt (n : Int) : String := toString n

/-! ## internal/domain/chamado.go: records -/

def StatusNew : Int := 1
def StatusAssign : Int := 2
def StatusPlanned : Int := 3
def StatusPending : Int := 4
def StatusSolved : Int := 5
def StatusClosed : Int := 6

structure TicketStatus where
  ID : Int
  Name : String
  deriving DecidableEq

structure TicketActor where
  ID : Int
  Name : String
  ActorType : String
  Role : String
  deriving DecidableEq

structure TicketFollowupUser where
  ID : Int
  Name : String
  deriving DecidableEq

structure TicketFollowup where
  ID : Int
  Date : String
  Content : String
  User : TicketFollowupUser
  deriving DecidableEq

structure TicketEntity where
  ID : Int
  Name : String
  deriving DecidableEq

structure Chamado where
  ID : Int
  Name : String
  Content : String
  Date : String
  Status : TicketStatus
  Priority : Int
  Entity : TicketEntity
  Actors : Slice TicketActor
  Followups : Slice TicketFollowup
  deriving DecidableEq

/-- Go `Chamado.getStatusInfo`: the status label and the name of its colour. -/
def Chamado.getStatusInfo (c : Chamado) : String × String :=
  if c.Status.ID = StatusNew then ("Novo", "#04B575")
  else if c.Status.ID = StatusAssign then ("Atribuído", "#007BFF")
  else if c.Status.ID = StatusPlanned then ("Planejado", "#FFC107")
  else if c.Status.ID = StatusPending then ("Pendente", "#FF8800")
  else if c.Status.ID = StatusSolved then ("Solucionado", "#6C757D")
  else if c.Status.ID = StatusClosed then ("Fechado", "#000000")
  else
    let name := c.Status.Name
    let name := if name = "" then "Status " ++ sprintInt c.Status.ID else name
    (name, "#888888")

def Chamado.GetPriorityLabel (c : Chamado) : String :=
  if c.Priority = 1 then "M. Baixa"
  else if c.Priority = 2 then "Baixa"
  else if c.Priority = 3 then "Média"
  else if c.Priority = 4 then "Alta"
  else if c.Priority = 5 then "M. Alta"
  else if c.Priority = 6 then "!CRÍTICA!"
  else sprintInt c.Priority

/-! ## Text cleaning: `strings.ReplaceAll`, the tag pattern, `strings.TrimSpace` -/

/-- The scan of `strings.ReplaceAll` for a non-empty `old`: matches are taken
left to right and do not overlap. The counter holds how many characters of the
match just replaced are still to be passed over. -/
def replaceAllAux (old new : List Char) : Nat → List Char → List Char
  | _, [] => []
  | k + 1, _ :: t => replaceAllAux old new k t
  | 0, c :: t =>
    if old.isPrefixOf (c :: t) then new ++ replaceAllAux old new (old.length - 1) t
    else c :: replaceAllAux old new 0 t

/-- Go `strings.ReplaceAll(s, old, new)` for a non-empty `old`. -/
def stringsReplaceAll (s old new : String) : String :=
  ⟨replaceAllAux old.data new.data 0 s.data⟩

/-- Removal of every leftmost match of the pattern `<[^>]*>`: a `<` opens a
match when some `>` follows it, and the match ends at the first such `>`. The
flag tells whether the scan is inside a match. -/
def stripTagsAux : Bool → List Char → List Char
  | _, [] => []
  | true, c :: t => if c = '>' then stripTagsAux false t else stripTagsAux true t
  | false, c :: t =>
    if c = '<' ∧ '>' ∈ t then stripTagsAux true t else c :: stripTagsAux false t

/-- Go `regexp.MustCompile("<[^>]*>").ReplaceAllString(s, "")`. -/
def stripTags (s : String) : String := ⟨stripTagsAux false s.data⟩

/-- Go `unicode.IsSpace`: the characters with the Unicode White_Space property. -/
def isSpace (c : Char) : Bool :=
  let n := c.toNat
  (9 ≤ n ∧ n ≤ 13) ∨ n = 32 ∨ n = 133 ∨ n = 160 ∨ n = 5760 ∨ (8192 ≤ n ∧ n ≤ 8202)
    ∨ n = 8232 ∨ n = 8233 ∨ n = 8239 ∨ n = 8287 ∨ n = 12288

/-- Go `strings.TrimSpace` on the characters of a string. -/
def trimSpaceChars (l : List Char) : List Char :=
  ((l.dropWhile isSpace).reverse.dropWhile isSpace).reverse

/-- Go `strings.TrimSpace`. -/
def stringsTrimSpace (s : String) : String := ⟨trimSpaceChars s.data⟩

/-- The references `&lt;`, `&gt;`, `&amp;`, `&quot;` and `&#39;` replaced in one
pass from left to right, every other character kept. -/
def unescapeBasicAux : Nat → List Char → List Char
  | _, [] => []
  | k + 1, _ :: t => unescapeBasicAux k t
  | 0, c :: t =>
    if "&lt;".data.isPrefixOf (c :: t) then '<' :: unescapeBasicAux 3 t
    else if "&gt;".data.isPrefixOf (c :: t) then '>' :: unescapeBasicAux 3 t
    else if "&amp;".data.isPrefixOf (c :: t) then '&' :: unescapeBasicAux 4 t
    else if "&quot;".data.isPrefixOf (c :: t) then Char.ofNat 34 :: unescapeBasicAux 5 t
    else if "&#39;".data.isPrefixOf (c :: t) then Char.ofNat 39 :: unescapeBasicAux 4 t
    else c :: unescapeBasicAux 0 t

/-- A reference instance of `html.UnescapeString` (standard library, not part of
the repository): on text in which every `&` starts one of the five references
written by `html.EscapeString` (`&lt;`, `&gt;`, `&amp;`, `&quot;`, `&#39;`) this is
the library function; its larger entity table is not reproduced. -/
def unescapeBasic (s : String) : String := ⟨unescapeBasicAux 0 s.data⟩

/-- Go `Chamado.GetCleanContent`, with `html.UnescapeString` as `unescape`. -/
def Chamado.GetCleanContent (unescape : String → String) (c : Chamado) : String :=
  let text := c.Content
  let text := stringsReplaceAll text "&lt;" "<"
  let text := stringsReplaceAll text "&gt;" ">"
  let text := stringsReplaceAll text "&amp;" "&"
  let text := stringsReplaceAll text "<br>" "\n"
  let text := stringsReplaceAll text "<br/>" "\n"
  let text := stringsReplaceAll text "<br />" "\n"
  let text := stringsReplaceAll text "</p>" "\n\n"
  let text := stripTags text
  let text := unescape text
  stringsTrimSpace text

/-- Go `TicketFollowup.GetCleanContent`, with `html.UnescapeString` as `unescape`. -/
def TicketFollowup.GetCleanContent (unescape : String → String) (f : TicketFollowup) : String :=
  let text := f.Content
  let text := stringsReplaceAll text "&lt;" "<"
  let text := stringsReplaceAll text "&gt;" ">"
  let text := stringsReplaceAll text "&amp;" "&"
  let text := stringsReplaceAll text "<br>" "\n"
  let text := stringsReplaceAll text "<br/>" "\n"
  let text := stringsReplaceAll text "</p>" "\n\n"
  let text := stripTags text
  let text := unescape text
  stringsTrimSpace text

/-- The names of the actors with the given role, in order (the loops of
`GetRequesters` and `GetTechnicians`). -/
def Chamado.namesWithRole (c : Chamado) (role : String) : List String :=
  (c.Actors.elems.filter (fun a => a.Role = role)).map (fun a => a.Name)

def Chamado.GetRequesters (c : Chamado) : String :=
  let names := c.namesWithRole "requester"
  if names.length = 0 then "N/A" else ", ".intercalate names

def Chamado.GetTechnicians (c : Chamado) : String :=
  let names := c.namesWithRole "assigned"
  if names.length = 0 then "Pendente" else ", ".intercalate names

/-! ## Dates: `time.Parse` for the two layouts in use and `Time.Format`

The standard library is not part of the repository. The definitions below follow
`time.Parse` for the layouts `"2006-01-02 15:04:05"` and `time.RFC3339`
(`"2006-01-02T15:04:05Z07:00"`): the year is four digits; month, day, minute and
second are two digits; the hour is one or two digits; a space of the layout
stands for any run of spaces; a fraction (`.` or `,` and digits) may follow the
seconds; the zone is `Z` or a sign and `hh:mm`. A parsed time is kept as its
wall-clock fields and zone offset, which is what `Format` prints: `Parse` places
the time in a zone with the parsed offset (UTC when there is none). -/

/-- A parsed `time.Time`: the wall-clock fields in the zone of the time, and the
offset of that zone in seconds when the text carried a numeric one. -/
structure Time where
  year : Nat
  month : Nat
  day : Nat
  hour : Nat
  min : Nat
  sec : Nat
  zoneOffset : Option Int
  deriving DecidableEq

/-- The two layouts handed to `time.Parse`. -/
inductive Layout
  | sqlDateTime
  | rfc3339
  deriving DecidableEq

def isDigit (c : Char) : Bool := 48 ≤ c.toNat ∧ c.toNat ≤ 57

def digitVal (c : Char) : Nat := c.toNat - 48

/-- The function `getnum` of package time: a number of two digits, or of one
digit when `fixed` is false and no second digit follows. -/
def getnum ( fixed : Bool) : List Char → Option (Nat × List Char)
  | [] => none
  | [c] => if isDigit c ∧ ¬ fixed then some (digitVal c, []) else none
  | c :: d :: rest =>
    if isDigit c then
      if isDigit d then some (digitVal c * 10 + digitVal d, rest)
      else if fixed then none
      else some (digitVal c, d :: rest)
    else none

/-- The four-digit year (`stdLongYear`). -/
def getYear : List Char → Option (Nat × List Char)
  | a :: b :: c :: d :: rest =>
    if isDigit a ∧ isDigit b ∧ isDigit c ∧ isDigit d then
      some (digitVal a * 1000 + digitVal b * 100 + digitVal c * 10 + digitVal d, rest)
    else none
  | _ => none

/-- The function `skip` of package time for a one-character literal of the
layout: a space matches any run of spaces (also none at the end of the text),
any other character matches itself. -/
def skipLit (p : Char) : List Char → Option (List Char)
  | [] => if p = ' ' then some [] else none
  | c :: rest =>
    if p = ' ' then (if c = ' ' then some (rest.dropWhile (· = ' ')) else none)
    else if c = p then some rest else none

/-- The fraction of a second that the text may carry after the seconds, though
the layout has none: a period or comma followed by digits is passed over. -/
def skipFraction : List Char → List Char
  | c :: d :: rest =>
    if (c = '.' ∨ c = ',') ∧ isDigit d then rest.dropWhile isDigit else c :: d :: rest
  | l => l

/-- The numeric zone after its sign: two digits, a colon and two digits, with an
hour up to 24 and a minute up to 60. -/
def getOffset (sign : Char) : List Char → Option (Option Int × List Char)
  | h1 :: h2 :: c :: m1 :: m2 :: rest =>
    if c = ':' ∧ isDigit h1 ∧ isDigit h2 ∧ isDigit m1 ∧ isDigit m2 then
      let hr := digitVal h1 * 10 + digitVal h2
      let mm := digitVal m1 * 10 + digitVal m2
      let off : Int := ((hr * 60 + mm) * 60 : Nat)
      if hr > 24 ∨ mm > 60 then none
      else if sign = '+' then some (some off, rest)
      else if sign = '-' then some (some (-off), rest)
      else none
    else none
  | _ => none

/-- The zone of `Z07:00`: `Z`, or a sign and `hh:mm`. -/
def getZone : List Char → Option (Option Int × List Char)
  | [] => none
  | s :: rest => if s = 'Z' then some (none, rest) else getOffset s rest

def isLeap (year : Nat) : Bool := year % 4 = 0 ∧ (year % 100 ≠ 0 ∨ year % 400 = 0)

def daysIn (month year : Nat) : Nat :=
  if month = 2 then (if isLeap year then 29 else 28)
  else if month = 4 ∨ month = 6 ∨ month = 9 ∨ month = 11 then 30
  else 31

/-- The date part of both layouts, `2006-01-02`: year, month and day, and the
rest of the text. The day is checked against the month at the end of the parse. -/
def parseDate (value : List Char) : Option ((Nat × Nat × Nat) × List Char) :=
  (getYear value).bind fun y =>
  (skipLit '-' y.2).bind fun v1 =>
  (getnum true v1).bind fun mo =>
  if mo.1 = 0 ∨ 12 < mo.1 then none
  else
    (skipLit '-' mo.2).bind fun v2 =>
    (getnum true v2).bind fun d =>
    some ((y.1, mo.1, d.1), d.2)

/-- The clock part of both layouts, `15:04:05`: hour, minute and second, and the
rest of the text after an optional fraction of a second. -/
def parseClock (value : List Char) : Option ((Nat × Nat × Nat) × List Char) :=
  (getnum false value).bind fun h =>
  if 24 ≤ h.1 then none
  else
    (skipLit ':' h.2).bind fun v1 =>
    (getnum true v1).bind fun mi =>
    if 60 ≤ mi.1 then none
    else
      (skipLit ':' mi.2).bind fun v2 =>
      (getnum true v2).bind fun s =>
      if 60 ≤ s.1 then none
      else some ((h.1, mi.1, s.1), skipFraction s.2)

/-- Go `time.Parse(layout, value)` on the characters of `value`; `none` is an error. -/
def timeParseChars (layout : Layout) (value : List Char) : Option Time :=
  (parseDate value).bind fun d =>
  (skipLit (if layout = Layout.sqlDateTime then ' ' else 'T') d.2).bind fun v1 =>
  (parseClock v1).bind fun c =>
  (if layout = Layout.sqlDateTime then some (none, c.2) else getZone c.2).bind fun z =>
  if z.2 ≠ [] then none
  else if d.1.2.2 < 1 ∨ d.1.2.2 > daysIn d.1.2.1 d.1.1 then none
  else some ⟨d.1.1, d.1.2.1, d.1.2.2, c.1.1, c.1.2.1, c.1.2.2, z.1⟩

/-- Go `time.Parse(layout, value)`. -/
def timeParse (layout : Layout) (value : String) : Option Time :=
  timeParseChars layout value.data

def digitChar (d : Nat) : Char := Char.ofNat (48 + d)

/-- A number below 100 in two digits, zero padded. -/
def pad2 (n : Nat) : List Char := [digitChar (n / 10 % 10), digitChar (n % 10)]

/-- A number below 10000 in four digits, zero padded. -/
def pad4 (n : Nat) : List Char :=
  [digitChar (n / 1000 % 10), digitChar (n / 100 % 10), digitChar (n / 10 % 10), digitChar (n % 10)]

/-- The characters of `t.Format("02/01/06 15:04")`. -/
def formatChars (t : Time) : List Char :=
  pad2 t.day ++ '/' :: pad2 t.month ++ '/' :: pad2 (t.year % 100) ++ ' ' :: pad2 t.hour
    ++ ':' :: pad2 t.min

/-- Go `t.Format("02/01/06 15:04")`. -/
def Time.Format (t : Time) : String := ⟨formatChars t⟩

/-- Go `Chamado.GetFormattedDate`: the SQL layout is tried first, then RFC 3339. -/
def Chamado.GetFormattedDate (c : Chamado) : String :=
  match timeParse Layout.sqlDateTime c.Date with
  | some t => t.Format
  | none =>
    match timeParse Layout.rfc3339 c.Date with
    | some t => t.Format
    | none => c.Date

/-- Go `TicketFollowup.GetFormattedDate`: RFC 3339 is tried first, then the SQL layout. -/
def TicketFollowup.GetFormattedDate (f : TicketFollowup) : String :=
  match timeParse Layout.rfc3339 f.Date with
  | some t => t.Format
  | none =>
    match timeParse Layout.sqlDateTime f.Date with
    | some t => t.Format
    | none => f.Date

/-- A ticket with the given date and every other field zero. -/
def Chamado.ofDate (s : String) : Chamado :=
  ⟨0, "", "", s, ⟨0, ""⟩, 0, ⟨0, ""⟩, none, none⟩

/-- A followup with the given date and every other field zero. -/
def TicketFollowup.ofDate (s : String) : TicketFollowup := ⟨0, s, "", ⟨0, ""⟩⟩

/-- A ticket with the given content and every other field zero. -/
def Chamado.ofContent (s : String) : Chamado :=
  ⟨0, "", s, "", ⟨0, ""⟩, 0, ⟨0, ""⟩, none, none⟩

/-- A followup with the given content and every other field zero. -/
def TicketFollowup.ofContent (s : String) : TicketFollowup := ⟨0, "", s, ⟨0, ""⟩⟩

/-! ## internal/api/client.go

`net/http` is not part of the repository: the transport is a parameter. Every
operation returns its result, the client afterwards and the requests it sent. -/

structure Config where
  BaseURL : String
  ClientID : String
  ClientSecret : String
  Username : String
  Password : String
  deriving DecidableEq

/-- The fields of `api.Client` that the operations read and write; `HTTPClient`
is the transport parameter of each operation. -/
structure Client where
  cfg : Config
  Token : String
  UserID : Int
  deriving DecidableEq

/-- An `http.Request` as the client builds it. -/
structure Request where
  method : String
  url : String
  header : List (String × String)
  body : String
  deriving DecidableEq

/-- An `http.Response`: status, headers in the order a `range` visits them, body. -/
structure Response where
  StatusCode : Int
  Header : List (String × List String)
  Body : String
  deriving DecidableEq

/-- The part of `net/http` the client calls. `newRequestError method url` is the
error text of `http.NewRequest` when it rejects the URL, `roundTrip` is
`HTTPClient.Do`, with the error text when the exchange fails. -/
structure Transport where
  newRequestError : String → String → Option String
  roundTrip : Request → Except String Response

/-- What a client operation leaves behind: the error it returned (`none` for a
nil error), the client afterwards, and the requests handed to the transport. -/
structure Outcome where
  err : Option String
  client : Client
  sent : List Request
  deriving DecidableEq

/-- Go `strings.Contains(s, sub)`. -/
def stringsContains (s sub : String) : Bool := sub.data <:+: s.data

/-- The text `%s` gives for a `[]string`. -/
def sprintStrings (v : List String) : String := "[" ++ " ".intercalate v ++ "]"

/-- The header lines that the failure message of the PATCH lists. -/
def debugHeaders (h : List (String × List String)) : String :=
  String.join ((h.filter (fun kv => stringsContains kv.1 "GLPI" || stringsContains kv.1 "Message")).map
    (fun kv => kv.1 ++ ": " ++ sprintStrings kv.2 ++ "\n"))

/-- The JSON text that `json.Marshal` gives for the PATCH envelope. -/
def assignPayload (userID : Int) : String :=
  "\x7b\"input\":\x7b\"status\":2,\"users_id_assign\":" ++ sprintInt userID ++ "\x7d\x7d"

/-- Go `Client.AssignTicketViaUpdate`. -/
def Client.AssignTicketViaUpdate (c : Client) (http : Transport) (ticketID entityID : Int) :
    Outcome :=
  if c.UserID = 0 then
    ⟨some "ID do usuário desconhecido. GetMyID foi chamado?", c, []⟩
  else
    let endpoint := c.cfg.BaseURL ++ "/Assistance/Ticket/" ++ sprintInt ticketID
    let jsonPayload := assignPayload c.UserID
    match http.newRequestError "PATCH" endpoint with
    | some e => ⟨some ("erro req patch: " ++ e), c, []⟩
    | none =>
      let req : Request :=
        ⟨"PATCH", endpoint,
          [("Content-Type", "application/json"), ("Accept", "application/json"),
            ("Authorization", "Bearer " ++ c.Token), ("GLPI-Entity", sprintInt entityID)],
          jsonPayload⟩
      match http.roundTrip req with
      | .error e => ⟨some ("erro conexão patch: " ++ e), c, [req]⟩
      | .ok resp =>
        if resp.StatusCode ≠ 200 ∧ resp.StatusCode ≠ 200 ∧ resp.StatusCode ≠ 204 then
          let debug := "\n--- STATUS: " ++ sprintInt resp.StatusCode ++ " ---\n"
            ++ "PAYLOAD: " ++ jsonPayload ++ "\n" ++ "--- HEADERS RESPOSTA ---\n"
            ++ debugHeaders resp.Header
          ⟨some ("FALHA PATCH:\n" ++ debug ++ "\nBODY: " ++ resp.Body), c, [req]⟩
        else ⟨none, c, [req]⟩

/-- A transport that answers every request with an empty 200 response. -/
def okTransport : Transport := ⟨fun _ _ => none, fun _ => .ok ⟨200, [], ""⟩⟩

/-! ## internal/tui/model.go: messages, commands and widgets

The Bubble Tea runtime and the `bubbles` widgets are libraries outside the
repository. A widget is a record of the fields the program sets or reads and a
number standing for the private state of the widget (cursor, scroll position,
frame); the `Update`, `View` and `SelectedItem` functions of the widgets and the
`lipgloss` rendering are the fields of `Lib`, a parameter of the program. -/

/-- A `tea.Msg` by dynamic type. `KeyMsg s` is a key message whose `String()` is
`s`; `otherMsg` is a message of any type the program does not name. The width of
a window is a natural number: the runtime reports the size of the terminal, and
`strings.Repeat` is then never called with a negative count. -/
inductive Msg
  | KeyMsg (s : String)
  | WindowSizeMsg (Width : Nat) (Height : Int)
  | loginSuccessMsg
  | ticketsLoadedMsg (tickets : Slice Chamado)
  | ticketActorsLoadedMsg (ticketID : Int) (actors : Slice TicketActor)
  | ticketFollowupsLoadedMsg (ticketID : Int) (followups : Slice TicketFollowup)
  | followupCreatedMsg
  | assignedSuccessMsg
  | errMsg (e : String)
  | spinnerTickMsg (tag : Nat)
  | otherMsg (tag : Nat)
  deriving DecidableEq

/-- A non-nil `tea.Cmd`, named by the function that builds it. The client the
commands of the program close over is always the client of the model. `widget`
is a command returned by the `Update` of a widget. -/
inductive Cmd
  | Quit
  | spinnerTick
  | textareaBlink
  | performLoginCmd
  | fetchTicketsCmd
  | fetchMyIDCmd
  | createFollowupCmd (ticketID : Int) (content : String)
  | fetchActorsCmd (id : Int)
  | fetchFollowupsCmd (id : Int)
  | assignToMeCmd (ticketID : Int) (entityID : Int)
  | widget (tag : Nat)
  deriving DecidableEq

/-- The command `Update` returns: `nil`, one command, or `tea.Batch(cmds...)` of
a list whose entries may be nil. -/
inductive TeaCmd
  | nil
  | single (c : Cmd)
  | batch (cmds : List (Option Cmd))
  deriving DecidableEq

/-- A command returned by a widget, nil or not. -/
def widgetCmd (tag : Option Nat) : Option Cmd := tag.map Cmd.widget

def TeaCmd.ofOption : Option Cmd → TeaCmd
  | none => TeaCmd.nil
  | some c => TeaCmd.single c

/-- The command `r` is among those `c` hands to the runtime. -/
def TeaCmd.issues (c : TeaCmd) (r : Cmd) : Prop :=
  match c with
  | TeaCmd.nil => False
  | TeaCmd.single x => x = r
  | TeaCmd.batch cmds => some r ∈ cmds

instance (c : TeaCmd) (r : Cmd) : Decidable (c.issues r) := by
  unfold TeaCmd.issues
  cases c <;> infer_instance

/-- The `list.Model` of the ticket list. -/
structure ListModel where
  items : Slice Chamado
  width : Int
  height : Int
  Title : String
  showHelp : Bool
  state : Nat
  deriving DecidableEq

/-- Go `list.New(items, delegate, width, height)`. -/
def listNew (items : Slice Chamado) (width height : Int) : ListModel :=
  ⟨items, width, height, "List", true, 0⟩

def ListModel.SetItems (l : ListModel) (items : Slice Chamado) : ListModel :=
  { l with items := items }

def ListModel.SetWidth (l : ListModel) (w : Int) : ListModel := { l with width := w }

def ListModel.SetHeight (l : ListModel) (h : Int) : ListModel := { l with height := h }

def ListModel.SetShowHelp (l : ListModel) (v : Bool) : ListModel := { l with showHelp := v }

/-- The `viewport.Model` of the ticket detail. -/
structure Viewport where
  Width : Nat
  Height : Int
  content : String
  state : Nat
  deriving DecidableEq

/-- Go `viewport.New(width, height)`. -/
def viewportNew (width : Nat) (height : Int) : Viewport := ⟨width, height, "", 0⟩

def Viewport.SetContent (v : Viewport) (s : String) : Viewport := { v with content := s }

/-- The `textarea.Model` of the reply box. -/
structure Textarea where
  value : String
  Placeholder : String
  focus : Bool
  CharLimit : Int
  width : Int
  height : Int
  ShowLineNumbers : Bool
  state : Nat
  deriving DecidableEq

/-- Go `textarea.New()`, as far as the fields of the record go. -/
def textareaNew : Textarea := ⟨"", "", false, 0, 0, 0, true, 0⟩

def Textarea.Value (t : Textarea) : String := t.value

def Textarea.Reset (t : Textarea) : Textarea := { t with value := "" }

def Textarea.Focus (t : Textarea) : Textarea := { t with focus := true }

def Textarea.Focused (t : Textarea) : Bool := t.focus

def Textarea.SetWidth (t : Textarea) (w : Int) : Textarea := { t with width := w }

def Textarea.SetHeight (t : Textarea) (h : Int) : Textarea := { t with height := h }

/-- The `spinner.Model`. -/
structure Spinner where
  state : Nat
  deriving DecidableEq

/-- The `lipgloss` styles the program builds. -/
inductive Style
  | title
  | info
  | divider
  | bold
  | followupsTitle
  | followupAuthor
  | composeBox
  | composeBoxFocused
  | composeHelp
  | footerRefreshing
  | footerIdle
  deriving DecidableEq

/-- The library functions the program calls and the repository does not hold. A
widget `Update` returns the widget afterwards and the tag of the command it
returns, if any. -/
structure Lib where
  htmlUnescapeString : String → String
  render : Style → String → String
  listUpdate : ListModel → Msg → ListModel × Option Nat
  listSelectedItem : ListModel → Option Chamado
  listView : ListModel → String
  viewportUpdate : Viewport → Msg → Viewport × Option Nat
  viewportView : Viewport → String
  textareaUpdate : Textarea → Msg → Textarea × Option Nat
  textareaView : Textarea → String
  spinnerUpdate : Spinner → Msg → Spinner × Option Nat
  spinnerView : Spinner → String

/-- The model of the program. The client is the record the pointer `client`
refers to, which is never nil (`main` passes `api.NewClient(cfg)`). -/
structure model where
  client : Client
  list : ListModel
  viewport : Viewport
  spinner : Spinner
  textarea : Textarea
  responding : Bool
  refreshing : Bool
  chamadoSelecionado : Option Chamado
  err : Option String
  loading : Bool
  ready : Bool
  deriving DecidableEq

def InitialModel (client : Client) : model :=
  let l := listNew (some []) 0 0
  let l := { l with Title := "Chamados GLPI" }
  let l := l.SetShowHelp false
  let ta := textareaNew
  let ta := { ta with
    Placeholder := "Digite sua resposta aqui... (Ctrl+S para enviar, Esc para cancelar)" }
  let ta := ta.Focus
  let ta := { ta with CharLimit := 2000 }
  let ta := ta.SetWidth 50
  let ta := ta.SetHeight 5
  let ta := { ta with ShowLineNumbers := false }
  { client := client
    list := l
    viewport := ⟨0, 0, "", 0⟩
    spinner := ⟨0⟩
    textarea := ta
    responding := false
    refreshing := false
    chamadoSelecionado := none
    err := none
    loading := true
    ready := false }

/-- Go `model.Init`. -/
def model.Init (_m : model) : TeaCmd :=
  TeaCmd.batch [some Cmd.spinnerTick, some Cmd.performLoginCmd]

/-- Go `strings.Repeat(s, n)`. -/
def stringsRepeat (s : String) (n : Nat) : String := String.join (List.replicate n s)

/-- Go `sort.Slice(lista, less)` with `less(i, j)` being `lista[i].ID > lista[j].ID`.
The library sort is not stable; the model keeps equal IDs in their order. -/
def sortFollowups (lista : List TicketFollowup) : List TicketFollowup :=
  lista.insertionSort (fun a b => a.ID ≥ b.ID)

/-- The followups section of the detail text. -/
def followupsSection (lib : Lib) (followups : Slice TicketFollowup) : String :=
  match followups with
  | none => "\n\n" ++ lib.render Style.info "Carregando histórico..."
  | some fs =>
    if fs.length > 0 then
      "\n\n" ++ lib.render Style.followupsTitle " 💬 Acompanhamentos " ++ "\n"
        ++ String.join (fs.map (fun f =>
          "\n" ++ lib.render Style.followupAuthor f.User.Name ++ " em "
            ++ lib.render Style.info f.GetFormattedDate ++ "\n"
            ++ lib.render Style.divider (stringsRepeat "-" 20) ++ "\n"
            ++ f.GetCleanContent lib.htmlUnescapeString ++ "\n"))
    else "\n\n" ++ lib.render Style.info "Nenhum acompanhamento registrado."

/-- The text `renderChamadoDetalhes` hands to the viewport for ticket `c`. -/
def detailContent (lib : Lib) (width : Nat) (c : Chamado) : String :=
  let header := lib.render Style.title ("#" ++ sprintInt c.ID ++ " " ++ c.Name) ++ "\n"
    ++ lib.render Style.info ("Aberto em: " ++ c.GetFormattedDate)
  let requester := if c.Actors.isSome then c.GetRequesters else "Carregando..."
  let tech := if c.Actors.isSome then c.GetTechnicians else "Carregando..."
  let actorsInfo := "\n👤 Requerente: " ++ lib.render Style.bold requester
    ++ "\n🔧 Técnico: " ++ lib.render Style.bold tech ++ "\n"
  let descriptionSection := lib.render Style.divider (stringsRepeat "─" width) ++ "\n"
    ++ c.GetCleanContent lib.htmlUnescapeString
  header ++ "\n" ++ actorsInfo ++ descriptionSection ++ followupsSection lib c.Followups

/-- Go `model.renderChamadoDetalhes`. -/
def model.renderChamadoDetalhes (lib : Lib) (m : model) : model :=
  match m.chamadoSelecionado with
  | none => m
  | some c => { m with viewport := m.viewport.SetContent (detailContent lib m.viewport.Width c) }

/-! ## internal/tui/model.go: `Update` and `View` -/

/-- Where the `switch` of the navigation mode leaves `Update`: at a `return`, or
at the default logic below it with the model and the commands gathered so far. -/
inductive Flow
  | ret (m : model) (cmd : TeaCmd)
  | next (m : model) (cmds : List (Option Cmd))

/-- The composing mode of `Update` (`m.responding` is true). `none` is the nil
dereference of `m.chamadoSelecionado.ID`. -/
def updateResponding (lib : Lib) (m : model) (msg : Msg) : Option (model × TeaCmd) :=
  let forward : Option (model × TeaCmd) :=
    let r := lib.textareaUpdate m.textarea msg
    some ({ m with textarea := r.1 }, TeaCmd.ofOption (widgetCmd r.2))
  match msg with
  | Msg.KeyMsg s =>
    if s = "esc" then
      some ({ m with responding := false, textarea := m.textarea.Reset }, TeaCmd.nil)
    else if s = "ctrl+s" then
      let content := m.textarea.Value
      if content = "" then some (m, TeaCmd.nil)
      else
        match m.chamadoSelecionado with
        | none => none
        | some c =>
          some ({ m with responding := false, textarea := m.textarea.Reset },
            TeaCmd.single (Cmd.createFollowupCmd c.ID content))
    else forward
  | _ => forward

/-- The `switch` of the navigation mode of `Update`. -/
def navSwitch (lib : Lib) (m : model) (msg : Msg) : Flow :=
  match msg with
  | Msg.KeyMsg s =>
    if s = "ctrl+c" then Flow.ret m (TeaCmd.single Cmd.Quit)
    else if s = "esc" then
      match m.chamadoSelecionado with
      | some _ => Flow.ret { m with chamadoSelecionado := none } TeaCmd.nil
      | none => Flow.next m []
    else if s = "a" then
      match m.chamadoSelecionado with
      | some c =>
        if m.client.UserID = 0 then
          Flow.ret { m with err := some "aguarde, carregando perfil de usuário..." } TeaCmd.nil
        else
          Flow.ret { m with refreshing := true }
            (TeaCmd.single (Cmd.assignToMeCmd c.ID c.Entity.ID))
      | none => Flow.next m []
    else if s = "r" then
      match m.chamadoSelecionado with
      | some c =>
        let ta := { m.textarea with
          Placeholder := "Escreva sua resposta para o chamado #" ++ sprintInt c.ID ++ "..." }
        Flow.ret { m with responding := true, textarea := ta.Focus }
          (TeaCmd.single Cmd.textareaBlink)
      | none => Flow.next m []
    else if s = "u" then
      match m.chamadoSelecionado with
      | some c =>
        if ¬ m.refreshing then
          Flow.ret { m with refreshing := true } (TeaCmd.single (Cmd.fetchFollowupsCmd c.ID))
        else Flow.next m []
      | none => Flow.next m []
    else Flow.next m []
  | Msg.WindowSizeMsg w h =>
    Flow.next { m with
      list := (m.list.SetWidth w).SetHeight h
      viewport := viewportNew w (h - 5)
      textarea := m.textarea.SetWidth ((w : Int) - 4)
      ready := true } []
  | Msg.loginSuccessMsg => Flow.next m [some Cmd.fetchTicketsCmd, some Cmd.fetchMyIDCmd]
  | Msg.ticketsLoadedMsg tickets =>
    Flow.next { m with loading := false, list := m.list.SetItems (some tickets.elems) } []
  | Msg.ticketActorsLoadedMsg ticketID actors =>
    match m.chamadoSelecionado with
    | some c =>
      if c.ID = ticketID then
        Flow.next
          (model.renderChamadoDetalhes lib
            { m with chamadoSelecionado := some { c with Actors := actors } }) []
      else Flow.next m []
    | none => Flow.next m []
  | Msg.ticketFollowupsLoadedMsg ticketID followups =>
    match m.chamadoSelecionado with
    | some c =>
      if c.ID = ticketID then
        let lista := sortFollowups followups.elems
        Flow.next
          (model.renderChamadoDetalhes lib
            { m with refreshing := false, chamadoSelecionado := some { c with Followups := some lista } })
          []
      else Flow.next m []
    | none => Flow.next m []
  | Msg.followupCreatedMsg =>
    match m.chamadoSelecionado with
    | some c => Flow.next m [some (Cmd.fetchFollowupsCmd c.ID)]
    | none => Flow.next m []
  | Msg.assignedSuccessMsg =>
    match m.chamadoSelecionado with
    | some c => Flow.next { m with refreshing := false } [some (Cmd.fetchActorsCmd c.ID)]
    | none => Flow.next { m with refreshing := false } []
  | Msg.errMsg e => Flow.ret { m with err := some e, loading := false } TeaCmd.nil
  | Msg.spinnerTickMsg _ =>
    if m.loading then
      let r := lib.spinnerUpdate m.spinner msg
      Flow.ret { m with spinner := r.1 } (TeaCmd.ofOption (widgetCmd r.2))
    else Flow.next m []
  | Msg.otherMsg _ => Flow.next m []

/-- The selection of the ticket under the cursor, on `enter` in the list. -/
def selectTicket (lib : Lib) (m : model) (cmds : List (Option Cmd)) (msg : Msg) :
    model × List (Option Cmd) :=
  match msg with
  | Msg.KeyMsg s =>
    if s = "enter" ∧ ¬ m.loading then
      match lib.listSelectedItem m.list with
      | some i =>
        (model.renderChamadoDetalhes lib
            { m with chamadoSelecionado := some { i with Actors := none, Followups := none } },
          cmds ++ [some (Cmd.fetchActorsCmd i.ID), some (Cmd.fetchFollowupsCmd i.ID)])
      | none => (m, cmds)
    else (m, cmds)
  | _ => (m, cmds)

/-- The first step of the default logic when no ticket is selected: the list
handles the message, unless the program is still loading. -/
def listStep (lib : Lib) (m : model) (cmds : List (Option Cmd)) (msg : Msg) :
    model × List (Option Cmd) :=
  if ¬ m.loading then
    let r := lib.listUpdate m.list msg
    ({ m with list := r.1 }, cmds ++ [widgetCmd r.2])
  else (m, cmds)

/-- The default logic of `Update`, below the `switch`: the message goes to the
list or to the viewport. -/
def defaultLogic (lib : Lib) (m : model) (cmds : List (Option Cmd)) (msg : Msg) :
    model × TeaCmd :=
  match m.chamadoSelecionado with
  | none =>
    let r1 := listStep lib m cmds msg
    let r2 := selectTicket lib r1.1 r1.2 msg
    (r2.1, TeaCmd.batch r2.2)
  | some _ =>
    let r := lib.viewportUpdate m.viewport msg
    ({ m with viewport := r.1 }, TeaCmd.batch (cmds ++ [widgetCmd r.2]))

/-- The navigation mode of `Update` (`m.responding` is false). -/
def updateNavigating (lib : Lib) (m : model) (msg : Msg) : model × TeaCmd :=
  match navSwitch lib m msg with
  | Flow.ret m1 cmd => (m1, cmd)
  | Flow.next m1 cmds => defaultLogic lib m1 cmds msg

/-- Go `model.Update`: the model afterwards and the command returned; `none` is a
nil-pointer panic. -/
def model.Update (lib : Lib) (m : model) (msg : Msg) : Option (model × TeaCmd) :=
  if m.responding then updateResponding lib m msg
  else some (updateNavigating lib m msg)

/-- The full-screen error view. -/
def errorView (e : String) : String :=
  "\n  ❌ Erro: " ++ e ++ "\n\n  Pressione Ctrl+C para sair."

/-- Go `model.View`. -/
def model.View (lib : Lib) (m : model) : String :=
  match m.err with
  | some e => errorView e
  | none =>
    if m.loading then "\n " ++ lib.spinnerView m.spinner ++ " Conectando ao GLPI...\n"
    else
      match m.chamadoSelecionado with
      | some _ =>
        let viewContent := lib.viewportView m.viewport
        if m.responding then
          let boxStyle := if m.textarea.Focused then Style.composeBoxFocused else Style.composeBox
          viewContent ++ "\n" ++ lib.render boxStyle (lib.textareaView m.textarea)
            ++ "\n" ++ lib.render Style.composeHelp "Ctrl+S: Enviar • Esc: Cancelar"
        else if m.refreshing then
          viewContent ++ "\n" ++ lib.render Style.footerRefreshing "\nAtualizando histórico... aguarde."
        else
          viewContent ++ "\n" ++ lib.render Style.footerIdle
            "\n[r] Responder • [u] Atualizar • [a] Atribuir a Mim • [Esc] Voltar"
      | none => lib.listView m.list

/-- The state after a run of messages, when no `Update` panics. -/
def runMsgs (lib : Lib) : model → List Msg → Option model
  | m, [] => some m
  | m, msg :: rest =>
    match model.Update lib m msg with
    | none => none
    | some r => runMsgs lib r.1 rest

/-- One step of the program as the runtime drives it: `Update` handles a
message, or a command running beside the loop writes the client (`Login` sets
the token, `GetMyID` the user id). -/
inductive Step (lib : Lib) : model → model → Prop
  | update (m : model) (msg : Msg) (m1 : model) (cmd : TeaCmd)
      (h : model.Update lib m msg = some (m1, cmd)) : Step lib m m1
  | client (m : model) (c : Client) : Step lib m { m with client := c }

/-- The states the program can reach from `InitialModel`. -/
inductive Reachable (lib : Lib) : model → Prop
  | init (client : Client) : Reachable lib (InitialModel client)
  | step (m m1 : model) (hm : Reachable lib m) (hs : Step lib m m1) : Reachable lib m1

/-- A library instance for evaluation: widgets that ignore every message and
return no command, a list whose selected item is its first item, plain text
rendering, and the reference unescaping. -/
def idleLib : Lib where
  htmlUnescapeString := unescapeBasic
  render := fun _ s => s
  listUpdate := fun l _ => (l, none)
  listSelectedItem := fun l => l.items.elems.head?
  listView := fun l => l.Title
  viewportUpdate := fun v _ => (v, none)
  viewportView := fun v => v.content
  textareaUpdate := fun t _ => (t, none)
  textareaView := fun t => t.value
  spinnerUpdate := fun s _ => (s, none)
  spinnerView := fun _ => "."

/-- A model in composing mode with an empty reply box and ticket 7 selected. -/
def composingEmpty : model :=
  { InitialModel ⟨⟨"", "", "", "", ""⟩, "tok", 3⟩ with
    responding := true
    loading := false
    chamadoSelecionado := some ⟨7, "T", "", "", ⟨1, ""⟩, 1, ⟨0, ""⟩, none, none⟩ }

/-- A model in navigation mode with ticket 7 selected and the user id not yet
known. -/
def viewingNoUser : model :=
  { InitialModel ⟨⟨"", "", "", "", ""⟩, "tok", 0⟩ with
    loading := false
    chamadoSelecionado := some ⟨7, "T", "", "", ⟨1, ""⟩, 1, ⟨4, "E"⟩, none, none⟩ }

/-- The model a `Flow` carries. -/
def Flow.model : Flow → model
  | Flow.ret m _ => m
  | Flow.next m _ => m

/-- The followups are ordered by ID descending. -/
def descendingByID (fs : List TicketFollowup) : Prop :=
  fs.Sorted (fun a b => a.ID ≥ b.ID)

/-- The followups of the selected ticket, when there is one and they are not
nil, are ordered by ID descending. -/
def selSorted (sel : Option Chamado) : Prop :=
  ∀ c fs, sel = some c → c.Followups = some fs → descendingByID fs

/-- A followup with the given id and every other field zero. -/
def TicketFollowup.ofID (id : Int) : TicketFollowup := ⟨id, "", "", ⟨0, ""⟩⟩

/-- A model in navigation mode with ticket 7 selected, its followups not yet
loaded, and the user id known. -/
def viewingTicket : model :=
  { InitialModel ⟨⟨"", "", "", "", ""⟩, "tok", 3⟩ with
    loading := false
    chamadoSelecionado := some ⟨7, "T", "", "", ⟨1, ""⟩, 1, ⟨4, "E"⟩, none, none⟩ }

/-- The text of `Chamado.GetCleanContent` before `html.UnescapeString` and
`strings.TrimSpace`: the seven replacements and the removal of the tags. -/
def preClean (l : List Char) : List Char :=
  stripTagsAux false
    (replaceAllAux "</p>".data "\n\n".data 0
      (replaceAllAux "<br />".data "\n".data 0
        (replaceAllAux "<br/>".data "\n".data 0
          (replaceAllAux "<br>".data "\n".data 0
            (replaceAllAux "&amp;".data "&".data 0
              (replaceAllAux "&gt;".data ">".data 0
                (replaceAllAux "&lt;".data "<".data 0 l)))))))

/-- No `<` of the text is followed, anywhere later, by a `>`: the tag pattern
`<[^>]*>` has no match in it. -/
def noTag : List Char → Prop
  | [] => True
  | c :: t => (c = '<' → '>' ∉ t) ∧ noTag t

/-- Nothing is left for `GetCleanContent` to clean in the text `r`: no `<` is
followed later by a `>`, none of the references `&lt;`, `&gt;` and `&amp;` occurs,
and `html.UnescapeString` returns `r` unchanged. -/
def isClean (unescape : String → String) (r : String) : Prop :=
  noTag r.data ∧ ¬ "&lt;".data <:+: r.data ∧ ¬ "&gt;".data <:+: r.data
    ∧ ¬ "&amp;".data <:+: r.data ∧ unescape r = r

instance noTagDecidable : (l : List Char) → Decidable (noTag l)
  | [] => isTrue trivial
  | c :: t =>
    match noTagDecidable t with
    | isTrue ht =>
      if hc : c = '<' → '>' ∉ t then isTrue ⟨hc, ht⟩ else isFalse (fun h => hc h.1)
    | isFalse ht => isFalse (fun h => ht h.2)

instance (unescape : String → String) (r : String) : Decidable (isClean unescape r) := by
  unfold isClean
  infer_instance

/-! ## Date texts, to state what `GetFormattedDate` displays -/

/-- The text `YYYY-MM-DD`, a separator, `HH:MM:SS`, and a tail. -/
def dateTimeChars (sep : Char) (Y M D h mi s : Nat) (tail : List Char) : List Char :=
  pad4 Y ++ ('-' :: (pad2 M ++ ('-' :: (pad2 D ++ (sep :: (pad2 h ++ (':' :: (pad2 mi
    ++ (':' :: (pad2 s ++ tail))))))))))

/-- The fraction of a second of an RFC 3339 text: nothing, or a period and the
given decimal digits. -/
def fractionChars : List Nat → List Char
  | [] => []
  | d :: ds => '.' :: digitChar d :: ds.map digitChar

/-- The zone of an RFC 3339 text: `Z`, or a sign and `hh:mm`. -/
inductive ZoneText
  | utc
  | offset (plus : Bool) (zh zm : Nat)

def zoneChars : ZoneText → List Char
  | ZoneText.utc => ['Z']
  | ZoneText.offset plus zh zm => (if plus then '+' else '-') :: (pad2 zh ++ (':' :: pad2 zm))

/-- The zone offset is one RFC 3339 allows. -/
def ZoneText.valid : ZoneText → Prop
  | ZoneText.utc => True
  | ZoneText.offset _ zh zm => zh < 24 ∧ zm < 60

instance (z : ZoneText) : Decidable z.valid := by
  cases z <;> unfold ZoneText.valid <;> infer_instance

/-- The text in the layout `2006-01-02 15:04:05`. -/
def sqlDateText (Y M D h mi s : Nat) : String := ⟨dateTimeChars ' ' Y M D h mi s []⟩

/-- The text in the layout of RFC 3339, with a fraction of a second and a zone. -/
def rfc3339Text (Y M D h mi s : Nat) (frac : List Nat) (zone : ZoneText) : String :=
  ⟨dateTimeChars 'T' Y M D h mi s (fractionChars frac ++ zoneChars zone)⟩

/-- The text `DD/MM/YY HH:MM`. -/
def displayText (Y M D h mi : Nat) : String :=
  ⟨pad2 D ++ '/' :: pad2 M ++ '/' :: pad2 (Y % 100) ++ ' ' :: pad2 h ++ ':' :: pad2 mi⟩

/-- The fields are those of a date and a time of day: a year of four digits, a
month, a day of that month, an hour, a minute and a second. -/
def validDateTime (Y M D h mi s : Nat) : Prop :=
  Y < 10000 ∧ 1 ≤ M ∧ M ≤ 12 ∧ 1 ≤ D ∧ D ≤ daysIn M Y ∧ h < 24 ∧ mi < 60 ∧ s < 60

instance (Y M D h mi s : Nat) : Decidable (validDateTime Y M D h mi s) := by
  unfold validDateTime
  infer_instance

/-! ## internal/api/client.go: the operations that need a token

`encoding/json` and `net/url` are outside the repository: what they compute is
the parameter `Codec`. -/

structure FollowupPayload where
  Content : String
  RequestTypeID : Int
  ItemsID : Int
  ItemType : String
  deriving DecidableEq

/-- The part of `net/url` and `encoding/json` the client calls. `urlParseError`
is the error text of `url.Parse` when it fails; `withQuery url q` is the text of
the URL after the query values `q` are set; the decoders give the value a
response body decodes to, or the error text; `marshalFollowup` is the JSON text
of the payload. -/
structure Codec where
  urlParseError : String → Option String
  withQuery : String → List (String × String) → String
  decodeTickets : String → Except String (Slice Chamado)
  decodeActors : String → Except String (Slice TicketActor)
  decodeTimeline : String → Except String (List (String × TicketFollowup))
  decodeUserMe : String → Except String Int
  marshalFollowup : FollowupPayload → String

/-- What a client operation that returns a value leaves behind: the value (the
zero value beside an error), the error (`none` for nil), the client afterwards,
and the requests handed to the transport. -/
structure OutcomeOf (α : Type) where
  value : α
  err : Option String
  client : Client
  sent : List Request

/-- The headers of an authenticated GET. -/
def getHeaders (c : Client) : List (String × String) :=
  [("Accept", "application/json"), ("Authorization", "Bearer " ++ c.Token)]

/-- Go `Client.GetTickets`. -/
def Client.GetTickets (c : Client) (http : Transport) (codec : Codec) :
    OutcomeOf (Slice Chamado) :=
  if c.Token = "" then ⟨none, some "client não autenticado: token vazio", c, []⟩
  else
    let endpoint := c.cfg.BaseURL ++ "/Assistance/Ticket"
    match codec.urlParseError endpoint with
    | some e => ⟨none, some ("erro na URL: " ++ e), c, []⟩
    | none =>
      let url := codec.withQuery endpoint [("limit", "20"), ("sort", "date_mod:desc")]
      match http.newRequestError "GET" url with
      | some e => ⟨none, some ("erro ao criar req: " ++ e), c, []⟩
      | none =>
        let req : Request := ⟨"GET", url, getHeaders c, ""⟩
        match http.roundTrip req with
        | .error e => ⟨none, some ("erro de conexão: " ++ e), c, [req]⟩
        | .ok resp =>
          if resp.StatusCode ≠ 200 ∧ resp.StatusCode ≠ 206 then
            ⟨none, some ("erro na API (HTTP " ++ sprintInt resp.StatusCode ++ "): " ++ resp.Body),
              c, [req]⟩
          else
            match codec.decodeTickets resp.Body with
            | .error e => ⟨none, some ("erro de decode do JSON: " ++ e), c, [req]⟩
            | .ok chamados => ⟨chamados, none, c, [req]⟩

/-- Go `Client.GetTicketActors`. -/
def Client.GetTicketActors (c : Client) (http : Transport) (codec : Codec) (ticketID : Int) :
    OutcomeOf (Slice TicketActor) :=
  if c.Token = "" then ⟨none, some "client não autenticado", c, []⟩
  else
    let endpoint := c.cfg.BaseURL ++ "/Assistance/Ticket/" ++ sprintInt ticketID ++ "/TeamMember"
    match http.newRequestError "GET" endpoint with
    | some e => ⟨none, some ("erro ao criar req de atores: " ++ e), c, []⟩
    | none =>
      let req : Request := ⟨"GET", endpoint, getHeaders c, ""⟩
      match http.roundTrip req with
      | .error e => ⟨none, some ("erro de conexão ao buscar atores: " ++ e), c, [req]⟩
      | .ok resp =>
        if resp.StatusCode ≠ 200 ∧ resp.StatusCode ≠ 206 then
          ⟨none, some ("erro API atores (HTTP " ++ sprintInt resp.StatusCode ++ "): "
            ++ resp.Body), c, [req]⟩
        else
          match codec.decodeActors resp.Body with
          | .error e => ⟨none, some ("erro de decode dos atores: " ++ e), c, [req]⟩
          | .ok actors => ⟨actors, none, c, [req]⟩

/-- The result of appending the items to a nil slice, one by one: nil when there
is no item. -/
def appendAll {α : Type} : List α → Slice α
  | [] => none
  | x :: xs => some (x :: xs)

/-- Go `Client.GetTicketFollowups`. -/
def Client.GetTicketFollowups (c : Client) (http : Transport) (codec : Codec) (ticketID : Int) :
    OutcomeOf (Slice TicketFollowup) :=
  if c.Token = "" then ⟨none, some "client não autenticado", c, []⟩
  else
    let endpoint := c.cfg.BaseURL ++ "/Assistance/Ticket/" ++ sprintInt ticketID
      ++ "/Timeline/Followup"
    match codec.urlParseError endpoint with
    | some e => ⟨none, some ("erro parsing url: " ++ e), c, []⟩
    | none =>
      let url := codec.withQuery endpoint [("expand_dropdowns", "true")]
      match http.newRequestError "GET" url with
      | some e => ⟨none, some ("erro ao criar req de followups: " ++ e), c, []⟩
      | none =>
        let req : Request := ⟨"GET", url, getHeaders c, ""⟩
        match http.roundTrip req with
        | .error e => ⟨none, some ("erro de conexão ao buscar followups: " ++ e), c, [req]⟩
        | .ok resp =>
          if resp.StatusCode ≠ 200 ∧ resp.StatusCode ≠ 206 then
            ⟨none, some ("erro API followups (HTTP " ++ sprintInt resp.StatusCode ++ "): "
              ++ resp.Body), c, [req]⟩
          else
            match codec.decodeTimeline resp.Body with
            | .error e => ⟨none, some ("erro de decode dos followups: " ++ e), c, [req]⟩
            | .ok rawResponse =>
              ⟨appendAll (rawResponse.map (fun wrapper => wrapper.2)), none, c, [req]⟩

/-- Go `Client.CreateTicketFollowup`; the value is what it prints to the
standard output. -/
def Client.CreateTicketFollowup (c : Client) (http : Transport) (codec : Codec)
    (ticketID : Int) (content : String) : OutcomeOf (List String) :=
  if c.Token = "" then ⟨[], some "client não autenticado", c, []⟩
  else
    let endpoint := c.cfg.BaseURL ++ "/Assistance/Ticket/" ++ sprintInt ticketID
      ++ "/Timeline/Followup"
    let payload : FollowupPayload := ⟨"<p>" ++ content ++ "</p>", 1, ticketID, "Ticket"⟩
    let jsonPayload := codec.marshalFollowup payload
    let printed := ["\n--- DEBUG PAYLOAD ---\n" ++ jsonPayload ++ "\n---------------------\n"]
    match http.newRequestError "POST" endpoint with
    | some e => ⟨printed, some ("erro ao criar requisição: " ++ e), c, []⟩
    | none =>
      let req : Request :=
        ⟨"POST", endpoint,
          [("Content-Type", "application/json"), ("Accept", "application/json"),
            ("Authorization", "Bearer " ++ c.Token)],
          jsonPayload⟩
      match http.roundTrip req with
      | .error e => ⟨printed, some ("erro de conexão ao criar followup: " ++ e), c, [req]⟩
      | .ok resp =>
        if resp.StatusCode ≠ 200 ∧ resp.StatusCode ≠ 201 then
          ⟨printed, some ("erro API criar followup (HTTP " ++ sprintInt resp.StatusCode ++ "): "
            ++ resp.Body), c, [req]⟩
        else ⟨printed, none, c, [req]⟩

/-- Go `Client.GetMyID`. -/
def Client.GetMyID (c : Client) (http : Transport) (codec : Codec) : Outcome :=
  if c.Token = "" then ⟨some "client não autenticado", c, []⟩
  else
    let endpoint := c.cfg.BaseURL ++ "/Administration/User/Me"
    match http.newRequestError "GET" endpoint with
    | some e => ⟨some ("erro ao criar req UserMe: " ++ e), c, []⟩
    | none =>
      let req : Request := ⟨"GET", endpoint, getHeaders c, ""⟩
      match http.roundTrip req with
      | .error e => ⟨some ("erro de conexão UserMe: " ++ e), c, [req]⟩
      | .ok resp =>
        if resp.StatusCode ≠ 200 then
          ⟨some ("erro API UserMe (HTTP " ++ sprintInt resp.StatusCode ++ ") no endpoint "
            ++ endpoint ++ ": " ++ resp.Body), c, [req]⟩
        else
          match codec.decodeUserMe resp.Body with
          | .error e => ⟨some ("erro decode UserMe: " ++ e), c, [req]⟩
          | .ok id => ⟨none, { c with UserID := id }, [req]⟩

/-- The message the command built by `fetchActorsCmd(c, id)` yields when the
runtime runs it. -/
def fetchActorsCmd (c : Client) (http : Transport) (codec : Codec) (id : Int) : Msg :=
  let r := c.GetTicketActors http codec id
  match r.err with
  | some _ => Msg.ticketActorsLoadedMsg id (some [])
  | none => Msg.ticketActorsLoadedMsg id r.value

/-- The message the command built by `fetchFollowupsCmd(c, id)` yields when the
runtime runs it. -/
def fetchFollowupsCmd (c : Client) (http : Transport) (codec : Codec) (id : Int) : Msg :=
  let r := c.GetTicketFollowups http codec id
  match r.err with
  | some _ => Msg.ticketFollowupsLoadedMsg id (some [])
  | none => Msg.ticketFollowupsLoadedMsg id r.value

/-- A codec for evaluation: URLs always parse, the query is appended as written,
every body decodes to the empty value. -/
def plainCodec : Codec where
  urlParseError := fun _ => none
  withQuery := fun url q => url ++ "?" ++ "&".intercalate (q.map (fun kv => kv.1 ++ "=" ++ kv.2))
  decodeTickets := fun _ => .ok (some [])
  decodeActors := fun _ => .ok (some [])
  decodeTimeline := fun _ => .ok []
  decodeUserMe := fun _ => .ok 0
  marshalFollowup := fun p => p.Content

/-- A transport whose every exchange fails. -/
def downTransport : Transport := ⟨fun _ _ => none, fun _ => .error "connection refused"⟩

/-- A client that has not logged in. -/
def anonymousClient : Client := ⟨⟨"http://h", "id", "secret", "user", "pass"⟩, "", 0⟩

/-- A client that has logged in and knows its user id. -/
def loggedClient : Client := ⟨⟨"http://h", "id", "secret", "user", "pass"⟩, "tok", 3⟩

/-- A model in composing mode with ticket 7 selected while its actors and
followups are still being fetched: the key `u` set `refreshing`, the key `r`
opened the reply box. -/
def composingWaiting : model :=
  { InitialModel loggedClient with
    responding := true
    refreshing := true
    loading := false
    chamadoSelecionado := some ⟨7, "T", "", "", ⟨1, ""⟩, 1, ⟨4, "E"⟩, none, none⟩ }

/-- A library instance for evaluation with a text box that takes keys: the text
of a key is appended to the value. The other widgets are those of `idleLib`. -/
def typingLib : Lib :=
  { idleLib with
    textareaUpdate := fun t msg =>
      match msg with
      | Msg.KeyMsg s => ({ t with value := t.value ++ s }, none)
      | _ => (t, none) }

/-- Ticket 7, as the list holds it. -/
def ticketSeven : Chamado := ⟨7, "T", "", "", ⟨1, ""⟩, 1, ⟨4, "E"⟩, none, none⟩

/-- The messages that lead from the initial model into a reply to ticket 7: the
tickets arrive, `enter` selects the ticket, `r` opens the reply box, and the
keys `o` and `k` are typed. -/
def replyMsgs : List Msg :=
  [Msg.ticketsLoadedMsg (some [ticketSeven]), Msg.KeyMsg "enter", Msg.KeyMsg "r",
    Msg.KeyMsg "o", Msg.KeyMsg "k"]

/-- The model reached by `replyMsgs` with `typingLib`. -/
def composingReached : model :=
  { client := loggedClient
    list := ⟨some [ticketSeven], 0, 0, "Chamados GLPI", false, 0⟩
    viewport := ⟨0, 0, detailContent typingLib 0 ticketSeven, 0⟩
    spinner := ⟨0⟩
    textarea := ⟨"ok", "Escreva sua resposta para o chamado #7...", true, 2000, 50, 5, false, 0⟩
    responding := true
    refreshing := false
    chamadoSelecionado := some ticketSeven
    err := none
    loading := false
    ready := false }

/-! # Theorems -/

/-! ## Update: shared lemmas -/

theorem update_nav (lib : Lib) (m : model) (msg : Msg) (h : m.responding = false) :
    model.Update lib m msg = some (updateNavigating lib m msg) := by
  simp [model.Update, h]

theorem update_resp (lib : Lib) (m : model) (msg : Msg) (h : m.responding = true) :
    model.Update lib m msg = updateResponding lib m msg := by
  simp [model.Update, h]

theorem renderChamadoDetalhes_sel (lib : Lib) (m : model) :
    (model.renderChamadoDetalhes lib m).chamadoSelecionado = m.chamadoSelecionado := by
  unfold model.renderChamadoDetalhes
  split <;> simp_all

theorem defaultLogic_sel_some (lib : Lib) (m : model) (cmds : List (Option Cmd)) (msg : Msg)
    (c : Chamado) (h : m.chamadoSelecionado = some c) :
    (defaultLogic lib m cmds msg).1.chamadoSelecionado = some c := by
  simp [defaultLogic, h]

theorem listStep_sel (lib : Lib) (m : model) (cmds : List (Option Cmd)) (msg : Msg) :
    (listStep lib m cmds msg).1.chamadoSelecionado = m.chamadoSelecionado := by
  unfold listStep
  split <;> rfl

theorem listStep_loading (lib : Lib) (m : model) (cmds : List (Option Cmd)) (msg : Msg) :
    (listStep lib m cmds msg).1.loading = m.loading := by
  unfold listStep
  split <;> rfl

theorem selectTicket_sel (lib : Lib) (m : model) (cmds : List (Option Cmd)) (msg : Msg) :
    (selectTicket lib m cmds msg).1.chamadoSelecionado = m.chamadoSelecionado
      ∨ ∃ i : Chamado, (∃ s, msg = Msg.KeyMsg s)
          ∧ (selectTicket lib m cmds msg).1.chamadoSelecionado
            = some { i with Actors := none, Followups := none } := by
  cases msg with
  | KeyMsg s =>
    by_cases hc : s = "enter" ∧ ¬ m.loading
    · cases hi : lib.listSelectedItem m.list with
      | none => left; simp [selectTicket, hc, hi]
      | some i =>
        right
        exact ⟨i, ⟨s, rfl⟩, by simp [selectTicket, hc, hi, renderChamadoDetalhes_sel]⟩
    · left; simp only [selectTicket, hc, if_false]
  | _ => left; rfl

theorem defaultLogic_sel (lib : Lib) (m : model) (cmds : List (Option Cmd)) (msg : Msg) :
    (defaultLogic lib m cmds msg).1.chamadoSelecionado = m.chamadoSelecionado
      ∨ ∃ i : Chamado, (∃ s, msg = Msg.KeyMsg s)
          ∧ (defaultLogic lib m cmds msg).1.chamadoSelecionado
            = some { i with Actors := none, Followups := none } := by
  cases hsel : m.chamadoSelecionado with
  | some c => left; exact defaultLogic_sel_some lib m cmds msg c hsel
  | none =>
    have hd : (defaultLogic lib m cmds msg).1
        = (selectTicket lib (listStep lib m cmds msg).1 (listStep lib m cmds msg).2 msg).1 := by
      simp [defaultLogic, hsel]
    rw [hd]
    rcases selectTicket_sel lib (listStep lib m cmds msg).1 (listStep lib m cmds msg).2 msg
      with hs | hs
    · left; rw [hs, listStep_sel, hsel]
    · right; exact hs

theorem defaultLogic_sel_none (lib : Lib) (m : model) (cmds : List (Option Cmd)) (msg : Msg)
    (h : m.chamadoSelecionado = none) (hk : ∀ s, msg ≠ Msg.KeyMsg s) :
    (defaultLogic lib m cmds msg).1.chamadoSelecionado = none := by
  rcases defaultLogic_sel lib m cmds msg with hs | ⟨i, ⟨s, hs⟩, -⟩
  · rw [hs, h]
  · exact absurd hs (hk s)

/-- C1. In navigation mode a `ticketActorsLoadedMsg` or `ticketFollowupsLoadedMsg`
whose ticket id is not the id of the selected ticket (also when no ticket is
selected) leaves the selected ticket as it is; so a result for ticket A that
arrives when B is selected, with another id, leaves B with its actors and
followups. -/
theorem C1_stale_result_discarded (lib : Lib) (m : model) (ticketID : Int)
    (actors : Slice TicketActor) (followups : Slice TicketFollowup)
    (hnav : m.responding = false)
    (hstale : ∀ c, m.chamadoSelecionado = some c → c.ID ≠ ticketID) :
    (∃ r, model.Update lib m (Msg.ticketActorsLoadedMsg ticketID actors) = some r
        ∧ r.1.chamadoSelecionado = m.chamadoSelecionado)
      ∧ (∃ r, model.Update lib m (Msg.ticketFollowupsLoadedMsg ticketID followups) = some r
        ∧ r.1.chamadoSelecionado = m.chamadoSelecionado) := by
  constructor
  · refine ⟨_, update_nav lib m _ hnav, ?_⟩
    cases hsel : m.chamadoSelecionado with
    | none =>
      simp only [updateNavigating, navSwitch, hsel]
      exact defaultLogic_sel_none lib m [] _ hsel (by simp)
    | some c =>
      have hne := hstale c hsel
      simp [updateNavigating, navSwitch, hsel, hne, defaultLogic]
  · refine ⟨_, update_nav lib m _ hnav, ?_⟩
    cases hsel : m.chamadoSelecionado with
    | none =>
      simp only [updateNavigating, navSwitch, hsel]
      exact defaultLogic_sel_none lib m [] _ hsel (by simp)
    | some c =>
      have hne := hstale c hsel
      simp [updateNavigating, navSwitch, hsel, hne, defaultLogic]

/-- C1, at an instance: ticket 2 is selected with its actors and followups
loaded, and the results for ticket 1 arrive. -/
theorem C1_stale_result_discarded_witness :
    (∃ r, model.Update idleLib
          { InitialModel ⟨⟨"", "", "", "", ""⟩, "", 0⟩ with
            chamadoSelecionado := some ⟨2, "B", "", "", ⟨1, ""⟩, 1, ⟨0, ""⟩, some [], some []⟩ }
          (Msg.ticketActorsLoadedMsg 1 (some [⟨5, "ana", "User", "requester"⟩])) = some r
        ∧ r.1.chamadoSelecionado = some ⟨2, "B", "", "", ⟨1, ""⟩, 1, ⟨0, ""⟩, some [], some []⟩)
      ∧ (∃ r, model.Update idleLib
          { InitialModel ⟨⟨"", "", "", "", ""⟩, "", 0⟩ with
            chamadoSelecionado := some ⟨2, "B", "", "", ⟨1, ""⟩, 1, ⟨0, ""⟩, some [], some []⟩ }
          (Msg.ticketFollowupsLoadedMsg 1 (some [⟨9, "", "x", ⟨5, "ana"⟩⟩])) = some r
        ∧ r.1.chamadoSelecionado = some ⟨2, "B", "", "", ⟨1, ""⟩, 1, ⟨0, ""⟩, some [], some []⟩) :=
  C1_stale_result_discarded idleLib
    { InitialModel ⟨⟨"", "", "", "", ""⟩, "", 0⟩ with
      chamadoSelecionado := some ⟨2, "B", "", "", ⟨1, ""⟩, 1, ⟨0, ""⟩, some [], some []⟩ }
    1 (some [⟨5, "ana", "User", "requester"⟩]) (some [⟨9, "", "x", ⟨5, "ana"⟩⟩]) rfl
    (by intro c hc; cases hc; decide)

/-- C3. In composing mode with an empty text buffer, `ctrl+s` returns the model
unchanged and no command: no create-followup request is issued. -/
theorem C3_empty_submit_noop (lib : Lib) (m : model)
    (hresp : m.responding = true) (hempty : m.textarea.Value = "") :
    model.Update lib m (Msg.KeyMsg "ctrl+s") = some (m, TeaCmd.nil) := by
  rw [update_resp lib m _ hresp]
  simp [updateResponding, hempty]

/-- C3, at a composing model with an empty reply box. -/
theorem C3_empty_submit_noop_witness :
    model.Update idleLib composingEmpty (Msg.KeyMsg "ctrl+s") = some (composingEmpty, TeaCmd.nil) :=
  C3_empty_submit_noop idleLib composingEmpty rfl rfl

/-- C4. With the user id unset, `AssignTicketViaUpdate` returns an error, sends
no HTTP request and leaves the client (token and user id) as it was. -/
theorem C4_assign_without_user_id (c : Client) (http : Transport) (ticketID entityID : Int)
    (h : c.UserID = 0) :
    (c.AssignTicketViaUpdate http ticketID entityID).err
        = some "ID do usuário desconhecido. GetMyID foi chamado?"
      ∧ (c.AssignTicketViaUpdate http ticketID entityID).sent = []
      ∧ (c.AssignTicketViaUpdate http ticketID entityID).sent.length = 0
      ∧ (c.AssignTicketViaUpdate http ticketID entityID).client.Token = c.Token
      ∧ (c.AssignTicketViaUpdate http ticketID entityID).client.UserID = c.UserID := by
  simp [Client.AssignTicketViaUpdate, h]

/-- C4, at a logged-in client whose user id is still 0. -/
theorem C4_assign_without_user_id_witness :
    ((Client.mk ⟨"http://h", "", "", "", ""⟩ "tok" 0).AssignTicketViaUpdate okTransport 12 3).err
        = some "ID do usuário desconhecido. GetMyID foi chamado?"
      ∧ ((Client.mk ⟨"http://h", "", "", "", ""⟩ "tok" 0).AssignTicketViaUpdate okTransport 12 3).sent = []
      ∧ ((Client.mk ⟨"http://h", "", "", "", ""⟩ "tok" 0).AssignTicketViaUpdate okTransport 12 3).sent.length = 0
      ∧ ((Client.mk ⟨"http://h", "", "", "", ""⟩ "tok" 0).AssignTicketViaUpdate okTransport 12 3).client.Token = "tok"
      ∧ ((Client.mk ⟨"http://h", "", "", "", ""⟩ "tok" 0).AssignTicketViaUpdate okTransport 12 3).client.UserID = 0 :=
  C4_assign_without_user_id (Client.mk ⟨"http://h", "", "", "", ""⟩ "tok" 0) okTransport 12 3 rfl

/-- C8. For a status id outside 1..6 the label of `getStatusInfo` is the status
name when that is not empty and `"Status N"` otherwise, and it is never empty. -/
theorem C8_status_label_fallback (c : Chamado) (h : c.Status.ID < 1 ∨ 6 < c.Status.ID) :
    c.getStatusInfo.1
        = (if c.Status.Name ≠ "" then c.Status.Name else "Status " ++ sprintInt c.Status.ID)
      ∧ c.getStatusInfo.1 ≠ "" := by
  have h1 : c.Status.ID ≠ 1 := by omega
  have h2 : c.Status.ID ≠ 2 := by omega
  have h3 : c.Status.ID ≠ 3 := by omega
  have h4 : c.Status.ID ≠ 4 := by omega
  have h5 : c.Status.ID ≠ 5 := by omega
  have h6 : c.Status.ID ≠ 6 := by omega
  have hl : c.getStatusInfo.1
      = (if c.Status.Name ≠ "" then c.Status.Name else "Status " ++ sprintInt c.Status.ID) := by
    simp only [Chamado.getStatusInfo, StatusNew, StatusAssign, StatusPlanned, StatusPending,
      StatusSolved, StatusClosed, h1, h2, h3, h4, h5, h6, if_false]
    by_cases hn : c.Status.Name = "" <;> simp [hn]
  refine ⟨hl, ?_⟩
  rw [hl]
  by_cases hn : c.Status.Name = ""
  · simp only [hn, ne_eq, not_true_eq_false, if_false]
    intro he
    have hlen := congrArg String.length he
    simp only [String.length_append] at hlen
    have h7 : "Status ".length = 7 := by decide
    have h0 : "".length = 0 := by decide
    omega
  · simp [hn]

/-- C8, at status id 9 without a name. -/
theorem C8_status_label_fallback_witness :
    (Chamado.getStatusInfo ⟨1, "", "", "", ⟨9, ""⟩, 1, ⟨0, ""⟩, none, none⟩).1
        = (if (TicketStatus.mk 9 "").Name ≠ "" then (TicketStatus.mk 9 "").Name
            else "Status " ++ sprintInt 9)
      ∧ (Chamado.getStatusInfo ⟨1, "", "", "", ⟨9, ""⟩, 1, ⟨0, ""⟩, none, none⟩).1 ≠ "" :=
  C8_status_label_fallback ⟨1, "", "", "", ⟨9, ""⟩, 1, ⟨0, ""⟩, none, none⟩ (by decide)

theorem widgetCmd_ne_assign (x : Option Nat) (t e : Int) :
    widgetCmd x ≠ some (Cmd.assignToMeCmd t e) := by
  cases x <;> simp [widgetCmd]

theorem selectTicket_cmds (lib : Lib) (m : model) (cmds : List (Option Cmd)) (msg : Msg) :
    (selectTicket lib m cmds msg).2 = cmds
      ∨ ∃ i : Chamado, (selectTicket lib m cmds msg).2
          = cmds ++ [some (Cmd.fetchActorsCmd i.ID), some (Cmd.fetchFollowupsCmd i.ID)] := by
  cases msg with
  | KeyMsg s =>
    by_cases hc : s = "enter" ∧ ¬ m.loading
    · cases hi : lib.listSelectedItem m.list with
      | none => left; simp [selectTicket, hc, hi]
      | some i => right; exact ⟨i, by simp [selectTicket, hc, hi]⟩
    · left; simp only [selectTicket, hc, if_false]
  | _ => left; rfl

theorem listStep_not_assign (lib : Lib) (m : model) (cmds : List (Option Cmd)) (msg : Msg)
    (t e : Int) (h : some (Cmd.assignToMeCmd t e) ∉ cmds) :
    some (Cmd.assignToMeCmd t e) ∉ (listStep lib m cmds msg).2 := by
  unfold listStep
  split
  · simp only [List.mem_append, List.mem_singleton]
    intro hh
    rcases hh with hh | hh
    · exact h hh
    · exact widgetCmd_ne_assign _ _ _ hh.symm
  · exact h

theorem defaultLogic_not_assign (lib : Lib) (m : model) (cmds : List (Option Cmd)) (msg : Msg)
    (t e : Int) (h : some (Cmd.assignToMeCmd t e) ∉ cmds) :
    ¬ (defaultLogic lib m cmds msg).2.issues (Cmd.assignToMeCmd t e) := by
  cases hsel : m.chamadoSelecionado with
  | some c =>
    simp only [defaultLogic, hsel, TeaCmd.issues, List.mem_append, List.mem_singleton]
    intro hh
    rcases hh with hh | hh
    · exact h hh
    · exact widgetCmd_ne_assign _ _ _ hh.symm
  | none =>
    have hd : (defaultLogic lib m cmds msg).2
        = TeaCmd.batch
          (selectTicket lib (listStep lib m cmds msg).1 (listStep lib m cmds msg).2 msg).2 := by
      simp [defaultLogic, hsel]
    rw [hd]
    have hc1 := listStep_not_assign lib m cmds msg t e h
    simp only [TeaCmd.issues]
    intro hh
    rcases selectTicket_cmds lib (listStep lib m cmds msg).1 (listStep lib m cmds msg).2 msg
      with hs | ⟨i, hs⟩
    · rw [hs] at hh; exact hc1 hh
    · rw [hs] at hh
      simp only [List.mem_append, List.mem_cons, List.mem_singleton] at hh
      rcases hh with hh | hh
      · exact hc1 hh
      · simp at hh

theorem updateResponding_not_assign (lib : Lib) (m : model) (msg : Msg) (r : model × TeaCmd)
    (t e : Int) (hu : updateResponding lib m msg = some r) :
    ¬ r.2.issues (Cmd.assignToMeCmd t e) := by
  have hf : ∀ x : Option Nat, ¬ (TeaCmd.ofOption (widgetCmd x)).issues (Cmd.assignToMeCmd t e) := by
    intro x; cases x <;> simp [widgetCmd, TeaCmd.ofOption, TeaCmd.issues]
  cases msg with
  | KeyMsg s =>
    by_cases h1 : s = "esc"
    · simp only [updateResponding, h1, if_true, Option.some.injEq] at hu
      subst hu; simp [TeaCmd.issues]
    by_cases h2 : s = "ctrl+s"
    · by_cases h3 : m.textarea.Value = ""
      · simp [updateResponding, h2, h3] at hu
        subst hu; simp [TeaCmd.issues]
      · cases hsel : m.chamadoSelecionado with
        | none => simp [updateResponding, h2, h3, hsel] at hu
        | some c =>
          simp [updateResponding, h2, h3, hsel] at hu
          subst hu; simp [TeaCmd.issues]
    · simp only [updateResponding, h1, h2, if_false, Option.some.injEq] at hu
      subst hu; exact hf _
  | _ =>
    simp only [updateResponding, Option.some.injEq] at hu
    subst hu; exact hf _

theorem navSwitch_next_not_assign (lib : Lib) (m m1 : model) (msg : Msg)
    (cmds : List (Option Cmd)) (t e : Int) (h : navSwitch lib m msg = Flow.next m1 cmds) :
    some (Cmd.assignToMeCmd t e) ∉ cmds := by
  cases msg with
  | KeyMsg s =>
    by_cases h1 : s = "ctrl+c"
    · simp [navSwitch, h1] at h
    by_cases h2 : s = "esc"
    · cases hsel : m.chamadoSelecionado <;> simp [navSwitch, h2, hsel] at h
      (rcases h with ⟨-, rfl⟩; simp)
    by_cases h3 : s = "a"
    · cases hsel : m.chamadoSelecionado with
      | none => simp [navSwitch, h3, hsel] at h; (rcases h with ⟨-, rfl⟩; simp)
      | some c => by_cases hid : m.client.UserID = 0 <;> simp [navSwitch, h3, hsel, hid] at h
    by_cases h4 : s = "r"
    · cases hsel : m.chamadoSelecionado <;> simp [navSwitch, h4, hsel] at h
      (rcases h with ⟨-, rfl⟩; simp)
    by_cases h5 : s = "u"
    · cases hsel : m.chamadoSelecionado with
      | none => simp [navSwitch, h5, hsel] at h; (rcases h with ⟨-, rfl⟩; simp)
      | some c =>
        cases hr : m.refreshing <;> simp [navSwitch, h5, hsel, hr] at h
        (rcases h with ⟨-, rfl⟩; simp)
    · simp [navSwitch, h1, h2, h3, h4, h5] at h
      (rcases h with ⟨-, rfl⟩; simp)
  | WindowSizeMsg w hh => simp [navSwitch] at h; (rcases h with ⟨-, rfl⟩; simp)
  | loginSuccessMsg => simp [navSwitch] at h; (rcases h with ⟨-, rfl⟩; simp)
  | ticketsLoadedMsg ts => simp [navSwitch] at h; (rcases h with ⟨-, rfl⟩; simp)
  | ticketActorsLoadedMsg id a =>
    cases hsel : m.chamadoSelecionado with
    | none => simp [navSwitch, hsel] at h; (rcases h with ⟨-, rfl⟩; simp)
    | some c =>
      by_cases hid : c.ID = id <;> simp [navSwitch, hsel, hid] at h <;> (rcases h with ⟨-, rfl⟩; simp)
  | ticketFollowupsLoadedMsg id f =>
    cases hsel : m.chamadoSelecionado with
    | none => simp [navSwitch, hsel] at h; (rcases h with ⟨-, rfl⟩; simp)
    | some c =>
      by_cases hid : c.ID = id <;> simp [navSwitch, hsel, hid] at h <;> (rcases h with ⟨-, rfl⟩; simp)
  | followupCreatedMsg =>
    cases hsel : m.chamadoSelecionado <;> simp [navSwitch, hsel] at h <;> (rcases h with ⟨-, rfl⟩; simp)
  | assignedSuccessMsg =>
    cases hsel : m.chamadoSelecionado <;> simp [navSwitch, hsel] at h <;> (rcases h with ⟨-, rfl⟩; simp)
  | errMsg e1 => simp [navSwitch] at h
  | spinnerTickMsg tag =>
    cases hl : m.loading <;> simp [navSwitch, hl] at h
    (rcases h with ⟨-, rfl⟩; simp)
  | otherMsg tag => simp [navSwitch] at h; (rcases h with ⟨-, rfl⟩; simp)

theorem navSwitch_ret_assign (lib : Lib) (m m1 : model) (msg : Msg) (cmd : TeaCmd) (t e : Int)
    (h : navSwitch lib m msg = Flow.ret m1 cmd) (hi : cmd.issues (Cmd.assignToMeCmd t e)) :
    m.client.UserID ≠ 0 ∧ msg = Msg.KeyMsg "a"
      ∧ ∃ c, m.chamadoSelecionado = some c ∧ c.ID = t ∧ c.Entity.ID = e := by
  cases msg with
  | KeyMsg s =>
    by_cases h1 : s = "ctrl+c"
    · simp [navSwitch, h1] at h
      rcases h with ⟨-, rfl⟩; simp [TeaCmd.issues] at hi
    by_cases h2 : s = "esc"
    · cases hsel : m.chamadoSelecionado <;> simp [navSwitch, h2, hsel] at h
      rcases h with ⟨-, rfl⟩; simp [TeaCmd.issues] at hi
    by_cases h3 : s = "a"
    · cases hsel : m.chamadoSelecionado with
      | none => simp [navSwitch, h3, hsel] at h
      | some c =>
        by_cases hid : m.client.UserID = 0
        · simp [navSwitch, h3, hsel, hid] at h
          rcases h with ⟨-, rfl⟩; simp [TeaCmd.issues] at hi
        · simp [navSwitch, h3, hsel, hid] at h
          rcases h with ⟨-, rfl⟩; simp [TeaCmd.issues] at hi
          exact ⟨hid, by rw [h3], c, rfl, hi.1, hi.2⟩
    by_cases h4 : s = "r"
    · cases hsel : m.chamadoSelecionado <;> simp [navSwitch, h4, hsel] at h
      rcases h with ⟨-, rfl⟩; simp [TeaCmd.issues] at hi
    by_cases h5 : s = "u"
    · cases hsel : m.chamadoSelecionado with
      | none => simp [navSwitch, h5, hsel] at h
      | some c =>
        cases hr : m.refreshing <;> simp [navSwitch, h5, hsel, hr] at h
        rcases h with ⟨-, rfl⟩; simp [TeaCmd.issues] at hi
    · simp [navSwitch, h1, h2, h3, h4, h5] at h
  | WindowSizeMsg w hh => simp [navSwitch] at h
  | loginSuccessMsg => simp [navSwitch] at h
  | ticketsLoadedMsg ts => simp [navSwitch] at h
  | ticketActorsLoadedMsg id a =>
    cases hsel : m.chamadoSelecionado with
    | none => simp [navSwitch, hsel] at h
    | some c => by_cases hid : c.ID = id <;> simp [navSwitch, hsel, hid] at h
  | ticketFollowupsLoadedMsg id f =>
    cases hsel : m.chamadoSelecionado with
    | none => simp [navSwitch, hsel] at h
    | some c => by_cases hid : c.ID = id <;> simp [navSwitch, hsel, hid] at h
  | followupCreatedMsg => cases hsel : m.chamadoSelecionado <;> simp [navSwitch, hsel] at h
  | assignedSuccessMsg => cases hsel : m.chamadoSelecionado <;> simp [navSwitch, hsel] at h
  | errMsg e1 =>
    simp [navSwitch] at h
    rcases h with ⟨-, rfl⟩; simp [TeaCmd.issues] at hi
  | spinnerTickMsg tag =>
    cases hl : m.loading <;> simp [navSwitch, hl] at h
    rcases h with ⟨-, rfl⟩
    cases hx : (lib.spinnerUpdate m.spinner (Msg.spinnerTickMsg tag)).2 <;>
      simp [hx, widgetCmd, TeaCmd.ofOption, TeaCmd.issues] at hi
  | otherMsg tag => simp [navSwitch] at h

theorem update_a_without_user (lib : Lib) (m : model) (c : Chamado)
    (hnav : m.responding = false) (hsel : m.chamadoSelecionado = some c)
    (hid : m.client.UserID = 0) :
    model.Update lib m (Msg.KeyMsg "a")
      = some ({ m with err := some "aguarde, carregando perfil de usuário..." }, TeaCmd.nil) := by
  rw [update_nav lib m _ hnav]
  simp [updateNavigating, navSwitch, hsel, hid]

/-- C5. In navigation mode with a ticket selected and the user id unknown, the
key `a` sets `err`, returns no command and leaves the selected ticket and the
refreshing flag as they were; and whenever `Update` returns the assign command,
the user id is known, a ticket is selected and the command carries its ids. -/
theorem C5_no_assign_without_user_id (lib : Lib) :
    (∀ (m : model) (c : Chamado), m.responding = false → m.chamadoSelecionado = some c →
        m.client.UserID = 0 →
        model.Update lib m (Msg.KeyMsg "a")
          = some ({ m with err := some "aguarde, carregando perfil de usuário..." }, TeaCmd.nil))
      ∧ (∀ (m : model) (msg : Msg) (r : model × TeaCmd) (t e : Int),
        model.Update lib m msg = some r → r.2.issues (Cmd.assignToMeCmd t e) →
        m.client.UserID ≠ 0 ∧ m.responding = false ∧ msg = Msg.KeyMsg "a"
          ∧ ∃ c, m.chamadoSelecionado = some c ∧ c.ID = t ∧ c.Entity.ID = e) := by
  constructor
  · intro m c hnav hsel hid
    rw [update_nav lib m _ hnav]
    simp [updateNavigating, navSwitch, hsel, hid]
  · intro m msg r t e hu hi
    cases hresp : m.responding with
    | true =>
      rw [update_resp lib m _ hresp] at hu
      exact absurd hi (updateResponding_not_assign lib m msg r t e hu)
    | false =>
      rw [update_nav lib m _ hresp] at hu
      cases hu
      cases hn : navSwitch lib m msg with
      | ret m1 cmd =>
        simp only [updateNavigating, hn] at hi
        obtain ⟨h1, h2, h3⟩ := navSwitch_ret_assign lib m m1 msg cmd t e hn hi
        exact ⟨h1, rfl, h2, h3⟩
      | next m1 cmds =>
        simp only [updateNavigating, hn] at hi
        exact absurd hi (defaultLogic_not_assign lib m1 cmds msg t e
          (navSwitch_next_not_assign lib m m1 msg cmds t e hn))

/-- C5, at a model with ticket 7 selected and the user id still 0. -/
theorem C5_no_assign_without_user_id_witness :
    model.Update idleLib viewingNoUser (Msg.KeyMsg "a")
      = some ({ viewingNoUser with err := some "aguarde, carregando perfil de usuário..." },
          TeaCmd.nil) :=
  (C5_no_assign_without_user_id idleLib).1 viewingNoUser
    ⟨7, "T", "", "", ⟨1, ""⟩, 1, ⟨4, "E"⟩, none, none⟩ rfl rfl rfl

/-- C10. In navigation mode a `ticketsLoadedMsg` clears `loading` and leaves the
list holding exactly the tickets of the message, in order, as a non-nil slice:
for a message of length 0, nil or empty, the empty non-nil slice. The list
widget `Update`, which then receives the message, is taken not to change
the items. -/
theorem C10_tickets_loaded (lib : Lib) (m : model) (tickets : Slice Chamado)
    (hnav : m.responding = false)
    (hlist : ∀ l, (lib.listUpdate l (Msg.ticketsLoadedMsg tickets)).1.items = l.items) :
    ∃ r, model.Update lib m (Msg.ticketsLoadedMsg tickets) = some r
      ∧ r.1.loading = false
      ∧ r.1.list.items = some tickets.elems
      ∧ (tickets.elems.length = 0 → r.1.list.items = some []) := by
  refine ⟨_, update_nav lib m _ hnav, ?_⟩
  have key : (updateNavigating lib m (Msg.ticketsLoadedMsg tickets)).1.loading = false
      ∧ (updateNavigating lib m (Msg.ticketsLoadedMsg tickets)).1.list.items
        = some tickets.elems := by
    cases hsel : m.chamadoSelecionado with
    | none =>
      simp [updateNavigating, navSwitch, defaultLogic, listStep, selectTicket, hsel, hlist,
        ListModel.SetItems]
    | some c => simp [updateNavigating, navSwitch, defaultLogic, hsel, ListModel.SetItems]
  refine ⟨key.1, key.2, ?_⟩
  intro h0
  rw [key.2, List.length_eq_zero.mp h0]

/-- C10, at the initial model and a nil ticket list. -/
theorem C10_tickets_loaded_witness :
    ∃ r, model.Update idleLib (InitialModel ⟨⟨"", "", "", "", ""⟩, "tok", 0⟩)
          (Msg.ticketsLoadedMsg none) = some r
      ∧ r.1.loading = false
      ∧ r.1.list.items = some (Slice.elems (none : Slice Chamado))
      ∧ ((Slice.elems (none : Slice Chamado)).length = 0 → r.1.list.items = some []) :=
  C10_tickets_loaded idleLib (InitialModel ⟨⟨"", "", "", "", ""⟩, "tok", 0⟩) none rfl
    (fun _ => rfl)

/-! ## The followups of the selected ticket stay sorted -/

theorem sortFollowups_sorted (l : List TicketFollowup) : descendingByID (sortFollowups l) := by
  haveI : IsTotal TicketFollowup (fun a b => a.ID ≥ b.ID) := ⟨fun a b => le_total b.ID a.ID⟩
  haveI : IsTrans TicketFollowup (fun a b => a.ID ≥ b.ID) :=
    ⟨fun a b c h1 h2 => le_trans h2 h1⟩
  exact List.sorted_insertionSort _ l

theorem sortFollowups_perm (l : List TicketFollowup) : (sortFollowups l).Perm l :=
  List.perm_insertionSort _ l

theorem selSorted_none : selSorted none := by
  intro c fs h; cases h

theorem selSorted_actors (c : Chamado) (a : Slice TicketActor) (h : selSorted (some c)) :
    selSorted (some { c with Actors := a }) := by
  intro c1 fs h1 h2
  cases h1
  exact h c fs rfl h2

theorem selSorted_followups (c : Chamado) (l : List TicketFollowup) :
    selSorted (some { c with Followups := some (sortFollowups l) }) := by
  intro c1 fs h1 h2
  cases h1
  cases h2
  exact sortFollowups_sorted l

theorem selSorted_cleared (i : Chamado) :
    selSorted (some { i with Actors := none, Followups := none }) := by
  intro c1 fs h1 h2
  cases h1
  cases h2

theorem navSwitch_selSorted (lib : Lib) (m : model) (msg : Msg)
    (h : selSorted m.chamadoSelecionado) :
    selSorted (navSwitch lib m msg).model.chamadoSelecionado := by
  cases msg with
  | KeyMsg s =>
    by_cases h1 : s = "ctrl+c"
    · simpa [navSwitch, h1, Flow.model] using h
    by_cases h2 : s = "esc"
    · cases hsel : m.chamadoSelecionado <;>
        simp [navSwitch, h2, hsel, Flow.model, selSorted_none]
    by_cases h3 : s = "a"
    · cases hsel : m.chamadoSelecionado with
      | none => simp [navSwitch, h3, hsel, Flow.model, selSorted_none]
      | some c =>
        rw [hsel] at h
        by_cases hid : m.client.UserID = 0 <;>
          simpa [navSwitch, h3, hsel, hid, Flow.model] using h
    by_cases h4 : s = "r"
    · cases hsel : m.chamadoSelecionado with
      | none => simp [navSwitch, h4, hsel, Flow.model, selSorted_none]
      | some c => rw [hsel] at h; simpa [navSwitch, h4, hsel, Flow.model] using h
    by_cases h5 : s = "u"
    · cases hsel : m.chamadoSelecionado with
      | none => simp [navSwitch, h5, hsel, Flow.model, selSorted_none]
      | some c =>
        rw [hsel] at h
        cases hr : m.refreshing <;> simpa [navSwitch, h5, hsel, hr, Flow.model] using h
    · simpa [navSwitch, h1, h2, h3, h4, h5, Flow.model] using h
  | WindowSizeMsg w hh => simpa [navSwitch, Flow.model] using h
  | loginSuccessMsg => simpa [navSwitch, Flow.model] using h
  | ticketsLoadedMsg ts => simpa [navSwitch, Flow.model] using h
  | ticketActorsLoadedMsg id a =>
    cases hsel : m.chamadoSelecionado with
    | none => simp [navSwitch, hsel, Flow.model, selSorted_none]
    | some c =>
      rw [hsel] at h
      by_cases hid : c.ID = id
      · subst hid
        simp only [navSwitch, hsel, if_true, Flow.model, renderChamadoDetalhes_sel]
        exact selSorted_actors c a h
      · simpa [navSwitch, hsel, hid, Flow.model] using h
  | ticketFollowupsLoadedMsg id f =>
    cases hsel : m.chamadoSelecionado with
    | none => simp [navSwitch, hsel, Flow.model, selSorted_none]
    | some c =>
      rw [hsel] at h
      by_cases hid : c.ID = id
      · subst hid
        simp only [navSwitch, hsel, if_true, Flow.model, renderChamadoDetalhes_sel]
        exact selSorted_followups c f.elems
      · simpa [navSwitch, hsel, hid, Flow.model] using h
  | followupCreatedMsg =>
    cases hsel : m.chamadoSelecionado with
    | none => simp [navSwitch, hsel, Flow.model, selSorted_none]
    | some c => rw [hsel] at h; simpa [navSwitch, hsel, Flow.model] using h
  | assignedSuccessMsg =>
    cases hsel : m.chamadoSelecionado with
    | none => simp [navSwitch, hsel, Flow.model, selSorted_none]
    | some c => rw [hsel] at h; simpa [navSwitch, hsel, Flow.model] using h
  | errMsg e1 => simpa [navSwitch, Flow.model] using h
  | spinnerTickMsg tag =>
    cases hl : m.loading <;> simpa [navSwitch, hl, Flow.model] using h
  | otherMsg tag => simpa [navSwitch, Flow.model] using h

theorem defaultLogic_selSorted (lib : Lib) (m : model) (cmds : List (Option Cmd)) (msg : Msg)
    (h : selSorted m.chamadoSelecionado) :
    selSorted (defaultLogic lib m cmds msg).1.chamadoSelecionado := by
  rcases defaultLogic_sel lib m cmds msg with hs | ⟨i, -, hs⟩
  · rw [hs]; exact h
  · rw [hs]; exact selSorted_cleared i

theorem updateResponding_sel (lib : Lib) (m : model) (msg : Msg) (r : model × TeaCmd)
    (hu : updateResponding lib m msg = some r) :
    r.1.chamadoSelecionado = m.chamadoSelecionado := by
  cases msg with
  | KeyMsg s =>
    by_cases h1 : s = "esc"
    · simp only [updateResponding, h1, if_true, Option.some.injEq] at hu
      subst hu; rfl
    by_cases h2 : s = "ctrl+s"
    · by_cases h3 : m.textarea.Value = ""
      · simp [updateResponding, h2, h3] at hu
        subst hu; rfl
      · cases hsel : m.chamadoSelecionado with
        | none => simp [updateResponding, h2, h3, hsel] at hu
        | some c =>
          simp [updateResponding, h2, h3, hsel] at hu
          subst hu; simp [hsel]
    · simp only [updateResponding, h1, h2, if_false, Option.some.injEq] at hu
      subst hu; rfl
  | _ =>
    simp only [updateResponding, Option.some.injEq] at hu
    subst hu; rfl

theorem update_selSorted (lib : Lib) (m : model) (msg : Msg) (r : model × TeaCmd)
    (hu : model.Update lib m msg = some r) (h : selSorted m.chamadoSelecionado) :
    selSorted r.1.chamadoSelecionado := by
  cases hresp : m.responding with
  | true =>
    rw [update_resp lib m _ hresp] at hu
    rw [updateResponding_sel lib m msg r hu]
    exact h
  | false =>
    rw [update_nav lib m _ hresp] at hu
    cases hu
    have hn := navSwitch_selSorted lib m msg h
    cases hf : navSwitch lib m msg with
    | ret m1 cmd =>
      rw [hf] at hn
      simpa [updateNavigating, hf, Flow.model] using hn
    | next m1 cmds =>
      rw [hf] at hn
      simp only [updateNavigating, hf]
      exact defaultLogic_selSorted lib m1 cmds msg hn

theorem reachable_selSorted (lib : Lib) (m : model) (h : Reachable lib m) :
    selSorted m.chamadoSelecionado := by
  induction h with
  | init client => exact selSorted_none
  | step m m1 _ hs ih =>
    cases hs with
    | update msg _ cmd hu => exact update_selSorted lib _ msg _ hu ih
    | client c => exact ih

/-- C2. In every state reachable from `InitialModel` the followups of the
selected ticket, when not nil, are ordered by ID descending; and in navigation
mode a `ticketFollowupsLoadedMsg` for the selected ticket stores a permutation
of the followups of the message ordered by ID descending. -/
theorem C2_followups_sorted (lib : Lib) :
    (∀ (m : model), Reachable lib m → ∀ (c : Chamado) (fs : List TicketFollowup),
        m.chamadoSelecionado = some c → c.Followups = some fs →
        fs.Sorted (fun a b => a.ID ≥ b.ID))
      ∧ (∀ (m : model) (c : Chamado) (followups : Slice TicketFollowup),
        m.responding = false → m.chamadoSelecionado = some c →
        ∃ r fs, model.Update lib m (Msg.ticketFollowupsLoadedMsg c.ID followups) = some r
          ∧ r.1.chamadoSelecionado = some { c with Followups := some fs }
          ∧ fs.Perm followups.elems
          ∧ fs.Sorted (fun a b => a.ID ≥ b.ID)) := by
  constructor
  · intro m hm c fs hc hfs
    exact reachable_selSorted lib m hm c fs hc hfs
  · intro m c followups hnav hsel
    refine ⟨_, sortFollowups followups.elems, update_nav lib m _ hnav, ?_,
      sortFollowups_perm _, sortFollowups_sorted _⟩
    simp only [updateNavigating, navSwitch, hsel, if_true]
    rw [defaultLogic_sel_some lib _ [] _ { c with Followups := some (sortFollowups followups.elems) }]
    rw [renderChamadoDetalhes_sel]

/-- C2, at ticket 7 and followups that arrive with the ids 3, 1, 2: they are
stored with the ids 3, 2, 1. -/
theorem C2_followups_sorted_witness :
    (∃ r fs, model.Update idleLib viewingTicket
          (Msg.ticketFollowupsLoadedMsg 7
            (some [TicketFollowup.ofID 3, TicketFollowup.ofID 1, TicketFollowup.ofID 2])) = some r
        ∧ r.1.chamadoSelecionado
          = some { (⟨7, "T", "", "", ⟨1, ""⟩, 1, ⟨4, "E"⟩, none, none⟩ : Chamado) with
              Followups := some fs }
        ∧ fs.Perm [TicketFollowup.ofID 3, TicketFollowup.ofID 1, TicketFollowup.ofID 2]
        ∧ fs.Sorted (fun a b => a.ID ≥ b.ID))
      ∧ sortFollowups [TicketFollowup.ofID 3, TicketFollowup.ofID 1, TicketFollowup.ofID 2]
        = [TicketFollowup.ofID 3, TicketFollowup.ofID 2, TicketFollowup.ofID 1] :=
  ⟨(C2_followups_sorted idleLib).2 viewingTicket ⟨7, "T", "", "", ⟨1, ""⟩, 1, ⟨4, "E"⟩, none, none⟩
      (some [TicketFollowup.ofID 3, TicketFollowup.ofID 1, TicketFollowup.ofID 2]) rfl rfl,
    by decide⟩

/-! ## The error of the model is never cleared -/

theorem renderChamadoDetalhes_err (lib : Lib) (m : model) :
    (model.renderChamadoDetalhes lib m).err = m.err := by
  unfold model.renderChamadoDetalhes
  split <;> rfl

theorem listStep_err (lib : Lib) (m : model) (cmds : List (Option Cmd)) (msg : Msg) :
    (listStep lib m cmds msg).1.err = m.err := by
  unfold listStep
  split <;> rfl

theorem selectTicket_err (lib : Lib) (m : model) (cmds : List (Option Cmd)) (msg : Msg) :
    (selectTicket lib m cmds msg).1.err = m.err := by
  cases msg with
  | KeyMsg s =>
    by_cases hc : s = "enter" ∧ ¬ m.loading
    · cases hi : lib.listSelectedItem m.list with
      | none => simp [selectTicket, hc, hi]
      | some i => simp [selectTicket, hc, hi, renderChamadoDetalhes_err]
    · simp only [selectTicket, hc, if_false]
  | _ => rfl

theorem defaultLogic_err (lib : Lib) (m : model) (cmds : List (Option Cmd)) (msg : Msg) :
    (defaultLogic lib m cmds msg).1.err = m.err := by
  cases hsel : m.chamadoSelecionado with
  | some c => simp [defaultLogic, hsel]
  | none =>
    have hd : (defaultLogic lib m cmds msg).1
        = (selectTicket lib (listStep lib m cmds msg).1 (listStep lib m cmds msg).2 msg).1 := by
      simp [defaultLogic, hsel]
    rw [hd, selectTicket_err, listStep_err]

theorem navSwitch_err (lib : Lib) (m : model) (msg : Msg) (e : String) (h : m.err = some e) :
    ∃ e1, (navSwitch lib m msg).model.err = some e1 := by
  cases msg with
  | KeyMsg s =>
    by_cases h1 : s = "ctrl+c"
    · exact ⟨e, by simpa [navSwitch, h1, Flow.model] using h⟩
    by_cases h2 : s = "esc"
    · cases hsel : m.chamadoSelecionado <;>
        exact ⟨e, by simpa [navSwitch, h2, hsel, Flow.model] using h⟩
    by_cases h3 : s = "a"
    · cases hsel : m.chamadoSelecionado with
      | none => exact ⟨e, by simpa [navSwitch, h3, hsel, Flow.model] using h⟩
      | some c =>
        by_cases hid : m.client.UserID = 0
        · exact ⟨"aguarde, carregando perfil de usuário...",
            by simp [navSwitch, h3, hsel, hid, Flow.model]⟩
        · exact ⟨e, by simpa [navSwitch, h3, hsel, hid, Flow.model] using h⟩
    by_cases h4 : s = "r"
    · cases hsel : m.chamadoSelecionado <;>
        exact ⟨e, by simpa [navSwitch, h4, hsel, Flow.model] using h⟩
    by_cases h5 : s = "u"
    · cases hsel : m.chamadoSelecionado with
      | none => exact ⟨e, by simpa [navSwitch, h5, hsel, Flow.model] using h⟩
      | some c =>
        cases hr : m.refreshing <;>
          exact ⟨e, by simpa [navSwitch, h5, hsel, hr, Flow.model] using h⟩
    · exact ⟨e, by simpa [navSwitch, h1, h2, h3, h4, h5, Flow.model] using h⟩
  | WindowSizeMsg w hh => exact ⟨e, by simpa [navSwitch, Flow.model] using h⟩
  | loginSuccessMsg => exact ⟨e, by simpa [navSwitch, Flow.model] using h⟩
  | ticketsLoadedMsg ts => exact ⟨e, by simpa [navSwitch, Flow.model] using h⟩
  | ticketActorsLoadedMsg id a =>
    cases hsel : m.chamadoSelecionado with
    | none => exact ⟨e, by simpa [navSwitch, hsel, Flow.model] using h⟩
    | some c =>
      by_cases hid : c.ID = id <;>
        exact ⟨e, by simpa [navSwitch, hsel, hid, Flow.model, renderChamadoDetalhes_err] using h⟩
  | ticketFollowupsLoadedMsg id f =>
    cases hsel : m.chamadoSelecionado with
    | none => exact ⟨e, by simpa [navSwitch, hsel, Flow.model] using h⟩
    | some c =>
      by_cases hid : c.ID = id <;>
        exact ⟨e, by simpa [navSwitch, hsel, hid, Flow.model, renderChamadoDetalhes_err] using h⟩
  | followupCreatedMsg =>
    cases hsel : m.chamadoSelecionado <;>
      exact ⟨e, by simpa [navSwitch, hsel, Flow.model] using h⟩
  | assignedSuccessMsg =>
    cases hsel : m.chamadoSelecionado <;>
      exact ⟨e, by simpa [navSwitch, hsel, Flow.model] using h⟩
  | errMsg e1 => exact ⟨e1, by simp [navSwitch, Flow.model]⟩
  | spinnerTickMsg tag =>
    cases hl : m.loading <;> exact ⟨e, by simpa [navSwitch, hl, Flow.model] using h⟩
  | otherMsg tag => exact ⟨e, by simpa [navSwitch, Flow.model] using h⟩

theorem updateResponding_err (lib : Lib) (m : model) (msg : Msg) (r : model × TeaCmd)
    (hu : updateResponding lib m msg = some r) : r.1.err = m.err := by
  cases msg with
  | KeyMsg s =>
    by_cases h1 : s = "esc"
    · simp only [updateResponding, h1, if_true, Option.some.injEq] at hu
      subst hu; rfl
    by_cases h2 : s = "ctrl+s"
    · by_cases h3 : m.textarea.Value = ""
      · simp [updateResponding, h2, h3] at hu
        subst hu; rfl
      · cases hsel : m.chamadoSelecionado with
        | none => simp [updateResponding, h2, h3, hsel] at hu
        | some c =>
          simp [updateResponding, h2, h3, hsel] at hu
          subst hu; rfl
    · simp only [updateResponding, h1, h2, if_false, Option.some.injEq] at hu
      subst hu; rfl
  | _ =>
    simp only [updateResponding, Option.some.injEq] at hu
    subst hu; rfl

theorem update_err (lib : Lib) (m : model) (msg : Msg) (r : model × TeaCmd) (e : String)
    (hu : model.Update lib m msg = some r) (h : m.err = some e) :
    ∃ e1, r.1.err = some e1 := by
  cases hresp : m.responding with
  | true =>
    rw [update_resp lib m _ hresp] at hu
    exact ⟨e, by rw [updateResponding_err lib m msg r hu, h]⟩
  | false =>
    rw [update_nav lib m _ hresp] at hu
    cases hu
    obtain ⟨e1, hn⟩ := navSwitch_err lib m msg e h
    cases hf : navSwitch lib m msg with
    | ret m1 cmd =>
      rw [hf] at hn
      exact ⟨e1, by simpa [updateNavigating, hf, Flow.model] using hn⟩
    | next m1 cmds =>
      rw [hf] at hn
      refine ⟨e1, ?_⟩
      simp only [updateNavigating, hf]
      rw [defaultLogic_err]
      exact hn

theorem steps_err (lib : Lib) (m m2 : model) (e : String) (h : m.err = some e)
    (hs : Relation.ReflTransGen (Step lib) m m2) : ∃ e2, m2.err = some e2 := by
  induction hs with
  | refl => exact ⟨e, h⟩
  | tail _ hstep ih =>
    obtain ⟨e1, h1⟩ := ih
    cases hstep with
    | update msg _ cmd hu => exact update_err lib _ msg _ e1 hu h1
    | client c => exact ⟨e1, h1⟩

theorem runMsgs_err (lib : Lib) (msgs : List Msg) (m m2 : model) (e : String)
    (h : m.err = some e) (hr : runMsgs lib m msgs = some m2) : ∃ e2, m2.err = some e2 := by
  induction msgs generalizing m e with
  | nil =>
    simp only [runMsgs, Option.some.injEq] at hr
    subst hr
    exact ⟨e, h⟩
  | cons msg rest ih =>
    cases hu : model.Update lib m msg with
    | none => simp [runMsgs, hu] at hr
    | some r =>
      simp only [runMsgs, hu] at hr
      obtain ⟨e1, h1⟩ := update_err lib m msg r e hu h
      exact ih r.1 e1 h1 hr

theorem view_err (lib : Lib) (m : model) (e : String) (h : m.err = some e) :
    model.View lib m = errorView e := by
  simp [model.View, h]

/-- C6, as the code has it. The error set by pressing `a` before the user id is
known is never cleared: after every run of further steps (messages handled by
`Update`, writes to the client) `err` is still set and `View` is the full-screen
error view. `Update` goes on handling messages underneath: the model is still
in navigation mode with the same ticket selected, and once the user id is known
the key `a` returns the assign command. -/
theorem C6_error_persists (lib : Lib) (m : model) (c : Chamado)
    (hnav : m.responding = false) (hsel : m.chamadoSelecionado = some c)
    (hid : m.client.UserID = 0) :
    ∃ m1, model.Update lib m (Msg.KeyMsg "a") = some (m1, TeaCmd.nil)
      ∧ m1.err = some "aguarde, carregando perfil de usuário..."
      ∧ (∀ m2, Relation.ReflTransGen (Step lib) m1 m2 →
          ∃ e, m2.err = some e ∧ model.View lib m2 = errorView e)
      ∧ (∀ msgs m2, runMsgs lib m1 msgs = some m2 →
          ∃ e, m2.err = some e ∧ model.View lib m2 = errorView e)
      ∧ m1.responding = false ∧ m1.chamadoSelecionado = some c
      ∧ (∀ uid : Int, uid ≠ 0 →
          model.Update lib { m1 with client := { m1.client with UserID := uid } } (Msg.KeyMsg "a")
            = some ({ m1 with client := { m1.client with UserID := uid }, refreshing := true },
                TeaCmd.single (Cmd.assignToMeCmd c.ID c.Entity.ID))) := by
  refine ⟨{ m with err := some "aguarde, carregando perfil de usuário..." },
    (update_a_without_user lib m c hnav hsel hid), rfl, ?_, ?_, hnav, hsel, ?_⟩
  · intro m2 hs
    obtain ⟨e, he⟩ := steps_err lib _ m2 _ rfl hs
    exact ⟨e, he, view_err lib m2 e he⟩
  · intro msgs m2 hr
    obtain ⟨e, he⟩ := runMsgs_err lib msgs _ m2 _ rfl hr
    exact ⟨e, he, view_err lib m2 e he⟩
  · intro uid huid
    rw [update_nav lib _ _ (by simpa using hnav)]
    simp [updateNavigating, navSwitch, hsel, huid]

/-- C6, at a model with ticket 7 selected and the user id still 0. -/
theorem C6_error_persists_witness :
    ∃ m1, model.Update idleLib viewingNoUser (Msg.KeyMsg "a") = some (m1, TeaCmd.nil)
      ∧ m1.err = some "aguarde, carregando perfil de usuário..."
      ∧ (∀ m2, Relation.ReflTransGen (Step idleLib) m1 m2 →
          ∃ e, m2.err = some e ∧ model.View idleLib m2 = errorView e)
      ∧ (∀ msgs m2, runMsgs idleLib m1 msgs = some m2 →
          ∃ e, m2.err = some e ∧ model.View idleLib m2 = errorView e)
      ∧ m1.responding = false
      ∧ m1.chamadoSelecionado = some ⟨7, "T", "", "", ⟨1, ""⟩, 1, ⟨4, "E"⟩, none, none⟩
      ∧ (∀ uid : Int, uid ≠ 0 →
          model.Update idleLib { m1 with client := { m1.client with UserID := uid } }
              (Msg.KeyMsg "a")
            = some ({ m1 with client := { m1.client with UserID := uid }, refreshing := true },
                TeaCmd.single (Cmd.assignToMeCmd
                  (⟨7, "T", "", "", ⟨1, ""⟩, 1, ⟨4, "E"⟩, none, none⟩ : Chamado).ID
                  (⟨7, "T", "", "", ⟨1, ""⟩, 1, ⟨4, "E"⟩, none, none⟩ : Chamado).Entity.ID))) :=
  C6_error_persists idleLib viewingNoUser ⟨7, "T", "", "", ⟨1, ""⟩, 1, ⟨4, "E"⟩, none, none⟩
    rfl rfl rfl

/-- C6 as stated fails: from the state `Update` produces for the key `a` with
ticket 7 selected and the user id unknown, no sequence of further messages
leads to a state whose `err` is nil or whose view is not the error view. -/
theorem C6_transient_error_counterexample :
    ¬ ∃ (m1 : model) (cmd : TeaCmd) (msgs : List Msg) (m2 : model),
      model.Update idleLib viewingNoUser (Msg.KeyMsg "a") = some (m1, cmd)
        ∧ runMsgs idleLib m1 msgs = some m2
        ∧ (m2.err = none ∨ ∀ e, model.View idleLib m2 ≠ errorView e) := by
  rintro ⟨m1, cmd, msgs, m2, hu, hr, hbad⟩
  rw [update_a_without_user idleLib viewingNoUser _ rfl rfl rfl] at hu
  cases hu
  obtain ⟨e, he⟩ := runMsgs_err idleLib msgs _ m2 _ rfl hr
  rcases hbad with h | h
  · rw [he] at h; cases h
  · exact h e (view_err idleLib m2 e he)

/-! ## Text cleaning -/

theorem replaceAllAux_no_head (h : Char) (o new l : List Char) (hl : h ∉ l) :
    replaceAllAux (h :: o) new 0 l = l := by
  induction l with
  | nil => rfl
  | cons c t ih =>
    have hc : h ≠ c := fun e => hl (by simp [e])
    have ht : h ∉ t := fun e => hl (List.mem_cons_of_mem _ e)
    have hp : (h :: o).isPrefixOf (c :: t) = false := by
      simp [List.isPrefixOf, hc]
    simp [replaceAllAux, hp, ih ht]

theorem replaceAllAux_not_mem (x : Char) (old new : List Char) (hn : x ∉ new) :
    ∀ (l : List Char) (k : Nat), x ∉ l → x ∉ replaceAllAux old new k l := by
  intro l
  induction l with
  | nil => intro k _; simp [replaceAllAux]
  | cons c t ih =>
    intro k hl
    have hc : x ≠ c := fun e => hl (by simp [e])
    have ht : x ∉ t := fun e => hl (List.mem_cons_of_mem _ e)
    cases k with
    | succ k => simpa [replaceAllAux] using ih k ht
    | zero =>
      simp only [replaceAllAux]
      split
      · simp only [List.mem_append, not_or]
        exact ⟨hn, ih _ ht⟩
      · simp only [List.mem_cons, not_or]
        exact ⟨hc, ih _ ht⟩

theorem stripTagsAux_not_mem (x : Char) :
    ∀ (l : List Char) (b : Bool), x ∉ l → x ∉ stripTagsAux b l := by
  intro l
  induction l with
  | nil => intro b _; cases b <;> simp [stripTagsAux]
  | cons c t ih =>
    intro b hl
    have hc : x ≠ c := fun e => hl (by simp [e])
    have ht : x ∉ t := fun e => hl (List.mem_cons_of_mem _ e)
    cases b with
    | true =>
      simp only [stripTagsAux]
      split
      · exact ih _ ht
      · exact ih _ ht
    | false =>
      simp only [stripTagsAux]
      split
      · exact ih _ ht
      · simp only [List.mem_cons, not_or]
        exact ⟨hc, ih _ ht⟩

theorem noTag_stripTagsAux : ∀ (l : List Char) (b : Bool), noTag (stripTagsAux b l) := by
  intro l
  induction l with
  | nil => intro b; cases b <;> simp [stripTagsAux, noTag]
  | cons c t ih =>
    intro b
    cases b with
    | true =>
      simp only [stripTagsAux]
      split
      · exact ih _
      · exact ih _
    | false =>
      simp only [stripTagsAux]
      split
      · exact ih _
      · rename_i hcond
        refine ⟨?_, ih _⟩
        intro hc
        have hgt : '>' ∉ t := fun hm => hcond ⟨hc, hm⟩
        exact stripTagsAux_not_mem '>' t false hgt

theorem noTag_tail (c : Char) (t : List Char) (h : noTag (c :: t)) : noTag t := h.2

theorem noTag_suffix (a : List Char) : ∀ (l : List Char), a <:+ l → noTag l → noTag a := by
  intro l
  induction l with
  | nil => intro hs _; rw [List.suffix_nil.mp hs]; trivial
  | cons c t ih =>
    intro hs hl
    rcases List.suffix_cons_iff.mp hs with h | h
    · rw [h]; exact hl
    · exact ih h hl.2

theorem noTag_prefix : ∀ (a l : List Char), a <+: l → noTag l → noTag a := by
  intro a
  induction a with
  | nil => intro l _ _; trivial
  | cons c t ih =>
    intro l hp hl
    cases l with
    | nil => simp at hp
    | cons d u =>
      obtain ⟨hcd, htu⟩ := List.cons_prefix_cons.mp hp
      subst hcd
      refine ⟨?_, ih u htu hl.2⟩
      intro hc hm
      exact hl.1 hc (htu.subset hm)

theorem replaceAllAux_noTag (o new : List Char) (ho : '>' ∈ o) :
    ∀ l : List Char, noTag l → replaceAllAux ('<' :: o) new 0 l = l := by
  intro l
  induction l with
  | nil => intro _; rfl
  | cons c t ih =>
    intro hl
    have hp : ('<' :: o).isPrefixOf (c :: t) = false := by
      by_contra hne
      have ht : ('<' :: o).isPrefixOf (c :: t) = true := by simpa using hne
      rw [List.isPrefixOf_iff_prefix] at ht
      obtain ⟨hc, hot⟩ := List.cons_prefix_cons.mp ht
      exact hl.1 hc.symm (hot.subset ho)
    simp [replaceAllAux, hp, ih hl.2]

theorem stripTagsAux_noTag : ∀ l : List Char, noTag l → stripTagsAux false l = l := by
  intro l
  induction l with
  | nil => intro _; rfl
  | cons c t ih =>
    intro hl
    have hcond : ¬ (c = '<' ∧ '>' ∈ t) := fun h => hl.1 h.1 h.2
    simp [stripTagsAux, hcond, ih hl.2]

theorem trimSpaceChars_eq (l : List Char) :
    trimSpaceChars l = (l.dropWhile isSpace).rdropWhile isSpace := rfl

theorem dropWhile_rdropWhile (p : Char → Bool) (y : List Char) (hy : y.dropWhile p = y) :
    (y.rdropWhile p).dropWhile p = y.rdropWhile p := by
  obtain ⟨z, hz⟩ := List.rdropWhile_prefix p y
  cases hr : y.rdropWhile p with
  | nil => rfl
  | cons a r =>
    rw [hr] at hz
    have hpa : p a = false := by
      cases hp : p a with
      | false => rfl
      | true =>
        exfalso
        rw [← hz] at hy
        have hlen := congrArg List.length hy
        simp only [List.cons_append, List.dropWhile_cons, hp, if_true] at hlen
        have hle := (List.dropWhile_suffix p (l := r ++ z)).length_le
        simp only [List.length_cons] at hlen
        omega
    simp [List.dropWhile_cons, hpa]

theorem trimSpaceChars_idem (l : List Char) :
    trimSpaceChars (trimSpaceChars l) = trimSpaceChars l := by
  simp only [trimSpaceChars_eq]
  rw [dropWhile_rdropWhile isSpace _ (List.dropWhile_idempotent isSpace l), List.rdropWhile_idempotent]

theorem trimSpaceChars_not_mem (x : Char) (l : List Char) (h : x ∉ l) : x ∉ trimSpaceChars l := by
  intro hm
  rw [trimSpaceChars_eq] at hm
  exact h ((List.dropWhile_suffix isSpace).subset ((List.rdropWhile_prefix isSpace _).subset hm))

theorem noTag_trimSpaceChars (l : List Char) (h : noTag l) : noTag (trimSpaceChars l) := by
  rw [trimSpaceChars_eq]
  exact noTag_prefix _ _ (List.rdropWhile_prefix isSpace _)
    (noTag_suffix _ _ (List.dropWhile_suffix isSpace) h)


theorem unescapeBasicAux_no_amp : ∀ l : List Char, '&' ∉ l → unescapeBasicAux 0 l = l := by
  intro l
  induction l with
  | nil => intro _; rfl
  | cons c t ih =>
    intro hl
    have hc : ¬ ('&' = c) := fun e => hl (by rw [← e]; exact List.mem_cons_self _ _)
    have ht : '&' ∉ t := fun e => hl (List.mem_cons_of_mem _ e)
    have hp : ∀ o : List Char, ('&' :: o).isPrefixOf (c :: t) = false := by
      intro o; simp [List.isPrefixOf, hc]
    have e1 : "&lt;".data = '&' :: ['l', 't', ';'] := rfl
    have e2 : "&gt;".data = '&' :: ['g', 't', ';'] := rfl
    have e3 : "&amp;".data = '&' :: ['a', 'm', 'p', ';'] := rfl
    have e4 : "&quot;".data = '&' :: ['q', 'u', 'o', 't', ';'] := rfl
    have e5 : "&#39;".data = '&' :: ['#', '3', '9', ';'] := rfl
    simp only [unescapeBasicAux, e1, e2, e3, e4, e5, hp, ih ht]
    simp

theorem unescapeBasic_no_amp (t : String) (h : '&' ∉ t.data) : unescapeBasic t = t := by
  unfold unescapeBasic
  rw [unescapeBasicAux_no_amp _ h]

/-- The text before unescaping and trimming, in `Chamado.GetCleanContent`. -/
theorem getCleanContent_eq (unescape : String → String) (c : Chamado) :
    c.GetCleanContent unescape
      = ⟨trimSpaceChars (unescape ⟨preClean c.Content.data⟩).data⟩ := rfl

theorem preClean_no_amp (l : List Char) (h : '&' ∉ l) :
    '&' ∉ preClean l ∧ noTag (preClean l) := by
  unfold preClean
  refine ⟨?_, noTag_stripTagsAux _ _⟩
  have e1 : "&lt;".data = '&' :: ['l', 't', ';'] := rfl
  have e2 : "&gt;".data = '&' :: ['g', 't', ';'] := rfl
  have e3 : "&amp;".data = '&' :: ['a', 'm', 'p', ';'] := rfl
  rw [e1, e2, e3, replaceAllAux_no_head _ _ _ _ h, replaceAllAux_no_head _ _ _ _ h,
    replaceAllAux_no_head _ _ _ _ h]
  apply stripTagsAux_not_mem
  apply replaceAllAux_not_mem _ _ _ (by decide)
  apply replaceAllAux_not_mem _ _ _ (by decide)
  apply replaceAllAux_not_mem _ _ _ (by decide)
  apply replaceAllAux_not_mem _ _ _ (by decide)
  exact h

theorem preClean_fixed (l : List Char) (h : '&' ∉ l) (hn : noTag l) : preClean l = l := by
  unfold preClean
  have e1 : "&lt;".data = '&' :: ['l', 't', ';'] := rfl
  have e2 : "&gt;".data = '&' :: ['g', 't', ';'] := rfl
  have e3 : "&amp;".data = '&' :: ['a', 'm', 'p', ';'] := rfl
  have e4 : "<br>".data = '<' :: ['b', 'r', '>'] := rfl
  have e5 : "<br/>".data = '<' :: ['b', 'r', '/', '>'] := rfl
  have e6 : "<br />".data = '<' :: ['b', 'r', ' ', '/', '>'] := rfl
  have e7 : "</p>".data = '<' :: ['/', 'p', '>'] := rfl
  rw [e1, e2, e3, e4, e5, e6, e7, replaceAllAux_no_head _ _ _ _ h,
    replaceAllAux_no_head _ _ _ _ h, replaceAllAux_no_head _ _ _ _ h,
    replaceAllAux_noTag _ _ (by decide) _ hn, replaceAllAux_noTag _ _ (by decide) _ hn,
    replaceAllAux_noTag _ _ (by decide) _ hn, replaceAllAux_noTag _ _ (by decide) _ hn,
    stripTagsAux_noTag _ hn]

/-- On content without `&`, cleaning the cleaned text gives the same text;
`html.UnescapeString` enters only through the fact that it returns text without
`&` unchanged. -/
theorem getCleanContent_idem_without_amp (unescape : String → String)
    (hU : ∀ t : String, '&' ∉ t.data → unescape t = t) (s : String) (hs : '&' ∉ s.data) :
    (Chamado.ofContent ((Chamado.ofContent s).GetCleanContent unescape)).GetCleanContent unescape
      = (Chamado.ofContent s).GetCleanContent unescape := by
  obtain ⟨h1, h2⟩ := preClean_no_amp s.data hs
  have hc : (Chamado.ofContent s).GetCleanContent unescape
      = ⟨trimSpaceChars (preClean s.data)⟩ := by
    rw [getCleanContent_eq]
    show (⟨trimSpaceChars (unescape ⟨preClean s.data⟩).data⟩ : String) = _
    rw [hU ⟨preClean s.data⟩ h1]
  rw [hc, getCleanContent_eq]
  show (⟨trimSpaceChars (unescape ⟨preClean (trimSpaceChars (preClean s.data))⟩).data⟩ : String) = _
  have h3 := trimSpaceChars_not_mem '&' _ h1
  have h4 := noTag_trimSpaceChars _ h2
  rw [preClean_fixed _ h3 h4, hU ⟨trimSpaceChars (preClean s.data)⟩ h3, trimSpaceChars_idem]

/-- C7 as stated fails: `&amp;lt;b&amp;gt;` is cleaned to `<b>`, and `<b>` is
cleaned to the empty text. -/
theorem C7_clean_idempotent_counterexample :
    (Chamado.ofContent "&amp;lt;b&amp;gt;").GetCleanContent unescapeBasic = "<b>"
      ∧ (Chamado.ofContent "<b>").GetCleanContent unescapeBasic = ""
      ∧ (Chamado.ofContent ((Chamado.ofContent "&amp;lt;b&amp;gt;").GetCleanContent
          unescapeBasic)).GetCleanContent unescapeBasic
        ≠ (Chamado.ofContent "&amp;lt;b&amp;gt;").GetCleanContent unescapeBasic := by
  decide

/-! ### When the cleaned text is a fixed point -/

theorem replaceAllAux_absent (old new : List Char) :
    ∀ l : List Char, ¬ old <:+: l → replaceAllAux old new 0 l = l := by
  intro l
  induction l with
  | nil => intro _; rfl
  | cons c t ih =>
    intro h
    have hp : old.isPrefixOf (c :: t) = false := by
      by_contra hne
      have ht : old.isPrefixOf (c :: t) = true := by simpa using hne
      rw [List.isPrefixOf_iff_prefix] at ht
      exact h ht.isInfix
    have ht : ¬ old <:+: t := fun hi => h (hi.trans (List.suffix_cons c t).isInfix)
    simp [replaceAllAux, hp, ih ht]

theorem replaceAllAux_length_le (old new : List Char) (hn : new.length ≤ old.length) :
    ∀ (l : List Char) (k : Nat), (replaceAllAux old new k l).length + min k l.length ≤ l.length := by
  intro l
  induction l with
  | nil => intro k; simp [replaceAllAux]
  | cons c t ih =>
    intro k
    cases k with
    | succ k =>
      have := ih k
      simp only [replaceAllAux, List.length_cons]
      omega
    | zero =>
      simp only [replaceAllAux]
      split
      · rename_i hp
        rw [List.isPrefixOf_iff_prefix] at hp
        have hlen := hp.length_le
        have := ih (old.length - 1)
        simp only [List.length_append, List.length_cons] at *
        omega
      · have := ih 0
        simp only [List.length_cons] at *
        omega

theorem replaceAllAux_length_lt (old new : List Char) (hn : new.length < old.length) :
    ∀ l : List Char, old <:+: l → (replaceAllAux old new 0 l).length < l.length := by
  intro l
  induction l with
  | nil =>
    intro h
    have := List.eq_nil_of_infix_nil h
    subst this
    simp at hn
  | cons c t ih =>
    intro h
    simp only [replaceAllAux]
    split
    · rename_i hp
      rw [List.isPrefixOf_iff_prefix] at hp
      have hlen := hp.length_le
      have := replaceAllAux_length_le old new (Nat.le_of_lt hn) t (old.length - 1)
      simp only [List.length_append, List.length_cons] at *
      omega
    · rename_i hp
      have hnp : ¬ old <+: c :: t := by
        intro hpre
        exact hp (List.isPrefixOf_iff_prefix.mpr hpre)
      have ht : old <:+: t := by
        rcases List.infix_cons_iff.mp h with h1 | h1
        · exact absurd h1 hnp
        · exact h1
      have := ih ht
      simp only [List.length_cons]
      omega

theorem stripTagsAux_length_le : ∀ (l : List Char) (b : Bool),
    (stripTagsAux b l).length ≤ l.length := by
  intro l
  induction l with
  | nil => intro b; cases b <;> simp [stripTagsAux]
  | cons c t ih =>
    intro b
    cases b with
    | true =>
      simp only [stripTagsAux]
      split
      · have := ih false; simp only [List.length_cons]; omega
      · have := ih true; simp only [List.length_cons]; omega
    | false =>
      simp only [stripTagsAux]
      split
      · have := ih true; simp only [List.length_cons]; omega
      · have := ih false; simp only [List.length_cons]; omega

theorem stripTagsAux_length_lt : ∀ l : List Char, ¬ noTag l →
    (stripTagsAux false l).length < l.length := by
  intro l
  induction l with
  | nil => intro h; exact absurd trivial h
  | cons c t ih =>
    intro h
    simp only [stripTagsAux]
    split
    · have := stripTagsAux_length_le t true
      simp only [List.length_cons]; omega
    · rename_i hcond
      have ht : ¬ noTag t := by
        intro hnt
        exact h ⟨fun hc hm => hcond ⟨hc, hm⟩, hnt⟩
      have := ih ht
      simp only [List.length_cons]; omega

theorem trimSpaceChars_within (l : List Char) : trimSpaceChars l <:+: l := by
  rw [trimSpaceChars_eq]
  exact (List.rdropWhile_prefix isSpace _).isInfix.trans (List.dropWhile_suffix isSpace).isInfix

theorem trimSpaceChars_eq_of_length (l : List Char)
    (h : (trimSpaceChars l).length = l.length) : trimSpaceChars l = l :=
  (trimSpaceChars_within l).sublist.eq_of_length h


theorem preClean_fixed_of_clean (l : List Char) (hn : noTag l) (n1 : ¬ "&lt;".data <:+: l)
    (n2 : ¬ "&gt;".data <:+: l) (n3 : ¬ "&amp;".data <:+: l) : preClean l = l := by
  unfold preClean
  have e4 : "<br>".data = '<' :: ['b', 'r', '>'] := rfl
  have e5 : "<br/>".data = '<' :: ['b', 'r', '/', '>'] := rfl
  have e6 : "<br />".data = '<' :: ['b', 'r', ' ', '/', '>'] := rfl
  have e7 : "</p>".data = '<' :: ['/', 'p', '>'] := rfl
  rw [replaceAllAux_absent _ _ l n1, replaceAllAux_absent _ _ l n2,
    replaceAllAux_absent _ _ l n3, e4, e5, e6, e7,
    replaceAllAux_noTag _ _ (by decide) _ hn, replaceAllAux_noTag _ _ (by decide) _ hn,
    replaceAllAux_noTag _ _ (by decide) _ hn, replaceAllAux_noTag _ _ (by decide) _ hn,
    stripTagsAux_noTag _ hn]

theorem preClean_length_le (l : List Char) : (preClean l).length ≤ l.length := by
  unfold preClean
  have b1 := replaceAllAux_length_le "&lt;".data "<".data (by decide) l 0
  generalize replaceAllAux "&lt;".data "<".data 0 l = l1 at b1 ⊢
  have b2 := replaceAllAux_length_le "&gt;".data ">".data (by decide) l1 0
  generalize replaceAllAux "&gt;".data ">".data 0 l1 = l2 at b2 ⊢
  have b3 := replaceAllAux_length_le "&amp;".data "&".data (by decide) l2 0
  generalize replaceAllAux "&amp;".data "&".data 0 l2 = l3 at b3 ⊢
  have b4 := replaceAllAux_length_le "<br>".data "\n".data (by decide) l3 0
  generalize replaceAllAux "<br>".data "\n".data 0 l3 = l4 at b4 ⊢
  have b5 := replaceAllAux_length_le "<br/>".data "\n".data (by decide) l4 0
  generalize replaceAllAux "<br/>".data "\n".data 0 l4 = l5 at b5 ⊢
  have b6 := replaceAllAux_length_le "<br />".data "\n".data (by decide) l5 0
  generalize replaceAllAux "<br />".data "\n".data 0 l5 = l6 at b6 ⊢
  have b7 := replaceAllAux_length_le "</p>".data "\n\n".data (by decide) l6 0
  generalize replaceAllAux "</p>".data "\n\n".data 0 l6 = l7 at b7 ⊢
  have b8 := stripTagsAux_length_le l7 false
  omega

/-- Every step of `preClean` shortens the text when it changes it: when
`preClean` keeps the length, no tag is left and none of the three references
occurs. -/
theorem preClean_same_length (l : List Char) (h : (preClean l).length = l.length) :
    noTag l ∧ ¬ "&lt;".data <:+: l ∧ ¬ "&gt;".data <:+: l ∧ ¬ "&amp;".data <:+: l := by
  unfold preClean at h
  have b1 := replaceAllAux_length_le "&lt;".data "<".data (by decide) l 0
  have s1 := replaceAllAux_length_lt "&lt;".data "<".data (by decide) l
  have q1 := replaceAllAux_absent "&lt;".data "<".data l
  generalize replaceAllAux "&lt;".data "<".data 0 l = l1 at h b1 s1 q1
  have b2 := replaceAllAux_length_le "&gt;".data ">".data (by decide) l1 0
  have s2 := replaceAllAux_length_lt "&gt;".data ">".data (by decide) l1
  have q2 := replaceAllAux_absent "&gt;".data ">".data l1
  generalize replaceAllAux "&gt;".data ">".data 0 l1 = l2 at h b2 s2 q2
  have b3 := replaceAllAux_length_le "&amp;".data "&".data (by decide) l2 0
  have s3 := replaceAllAux_length_lt "&amp;".data "&".data (by decide) l2
  have q3 := replaceAllAux_absent "&amp;".data "&".data l2
  generalize replaceAllAux "&amp;".data "&".data 0 l2 = l3 at h b3 s3 q3
  have b4 := replaceAllAux_length_le "<br>".data "\n".data (by decide) l3 0
  have s4 := replaceAllAux_length_lt "<br>".data "\n".data (by decide) l3
  have q4 := replaceAllAux_absent "<br>".data "\n".data l3
  generalize replaceAllAux "<br>".data "\n".data 0 l3 = l4 at h b4 s4 q4
  have b5 := replaceAllAux_length_le "<br/>".data "\n".data (by decide) l4 0
  have s5 := replaceAllAux_length_lt "<br/>".data "\n".data (by decide) l4
  have q5 := replaceAllAux_absent "<br/>".data "\n".data l4
  generalize replaceAllAux "<br/>".data "\n".data 0 l4 = l5 at h b5 s5 q5
  have b6 := replaceAllAux_length_le "<br />".data "\n".data (by decide) l5 0
  have s6 := replaceAllAux_length_lt "<br />".data "\n".data (by decide) l5
  have q6 := replaceAllAux_absent "<br />".data "\n".data l5
  generalize replaceAllAux "<br />".data "\n".data 0 l5 = l6 at h b6 s6 q6
  have b7 := replaceAllAux_length_le "</p>".data "\n\n".data (by decide) l6 0
  have s7 := replaceAllAux_length_lt "</p>".data "\n\n".data (by decide) l6
  have q7 := replaceAllAux_absent "</p>".data "\n\n".data l6
  generalize replaceAllAux "</p>".data "\n\n".data 0 l6 = l7 at h b7 s7 q7
  have b8 := stripTagsAux_length_le l7 false
  have s8 := stripTagsAux_length_lt l7
  have n1 : ¬ "&lt;".data <:+: l := fun hi => by have := s1 hi; omega
  have e1 := q1 n1
  subst e1
  have n2 : ¬ "&gt;".data <:+: l1 := fun hi => by have := s2 hi; omega
  have e2 := q2 n2
  subst e2
  have n3 : ¬ "&amp;".data <:+: l2 := fun hi => by have := s3 hi; omega
  have e3 := q3 n3
  subst e3
  have n4 : ¬ "<br>".data <:+: l3 := fun hi => by have := s4 hi; omega
  have e4 := q4 n4
  subst e4
  have n5 : ¬ "<br/>".data <:+: l4 := fun hi => by have := s5 hi; omega
  have e5 := q5 n5
  subst e5
  have n6 : ¬ "<br />".data <:+: l5 := fun hi => by have := s6 hi; omega
  have e6 := q6 n6
  subst e6
  have n7 : ¬ "</p>".data <:+: l6 := fun hi => by have := s7 hi; omega
  have e7 := q7 n7
  subst e7
  refine ⟨?_, n1, n2, n3⟩
  by_contra hnt
  have := s8 hnt
  omega

theorem clean_fixed_of_isClean (unescape : String → String) (r : String)
    (h : isClean unescape r) (ht : trimSpaceChars r.data = r.data) :
    (Chamado.ofContent r).GetCleanContent unescape = r := by
  obtain ⟨hn, n1, n2, n3, hu⟩ := h
  rw [getCleanContent_eq]
  show (⟨trimSpaceChars (unescape ⟨preClean r.data⟩).data⟩ : String) = r
  rw [preClean_fixed_of_clean r.data hn n1 n2 n3]
  show (⟨trimSpaceChars (unescape r).data⟩ : String) = r
  rw [hu, ht]

theorem isClean_of_clean_fixed (unescape : String → String)
    (hlen : ∀ t : String, (unescape t).data.length ≤ t.data.length)
    (hfix : ∀ t : String, (unescape t).data.length = t.data.length → unescape t = t)
    (r : String) (h : (Chamado.ofContent r).GetCleanContent unescape = r) :
    isClean unescape r := by
  rw [getCleanContent_eq] at h
  have hd : trimSpaceChars (unescape ⟨preClean r.data⟩).data = r.data := congrArg String.data h
  have c1 := (trimSpaceChars_within (unescape ⟨preClean r.data⟩).data).length_le
  have c2 := hlen ⟨preClean r.data⟩
  have c3 := preClean_length_le r.data
  have c0 := congrArg List.length hd
  have hp : (preClean r.data).length = r.data.length := by
    change (unescape ⟨preClean r.data⟩).data.length ≤ (preClean r.data).length at c2
    omega
  obtain ⟨hn, n1, n2, n3⟩ := preClean_same_length r.data hp
  refine ⟨hn, n1, n2, n3, ?_⟩
  have hpe := preClean_fixed_of_clean r.data hn n1 n2 n3
  have hu := hfix ⟨preClean r.data⟩ (by
    change (unescape ⟨preClean r.data⟩).data.length = (preClean r.data).length
    change (unescape ⟨preClean r.data⟩).data.length ≤ (preClean r.data).length at c2
    omega)
  rw [hpe] at hu
  exact hu

theorem unescapeBasicAux_length_le : ∀ (l : List Char) (k : Nat),
    (unescapeBasicAux k l).length + min k l.length ≤ l.length := by
  intro l
  induction l with
  | nil => intro k; simp [unescapeBasicAux]
  | cons c t ih =>
    intro k
    cases k with
    | succ k =>
      have := ih k
      simp only [unescapeBasicAux, List.length_cons]
      omega
    | zero =>
      have i0 := ih 0
      have i3 := ih 3
      have i4 := ih 4
      have i5 := ih 5
      simp only [unescapeBasicAux]
      split
      · rename_i hp
        have hlen := (List.isPrefixOf_iff_prefix.mp hp).length_le
        simp only [String.length, List.length_cons] at *
        omega
      · split
        · rename_i hp
          have hlen := (List.isPrefixOf_iff_prefix.mp hp).length_le
          simp only [List.length_cons] at *
          omega
        · split
          · rename_i hp
            have hlen := (List.isPrefixOf_iff_prefix.mp hp).length_le
            simp only [List.length_cons] at *
            omega
          · split
            · rename_i hp
              have hlen := (List.isPrefixOf_iff_prefix.mp hp).length_le
              simp only [List.length_cons] at *
              omega
            · split
              · rename_i hp
                have hlen := (List.isPrefixOf_iff_prefix.mp hp).length_le
                simp only [List.length_cons] at *
                omega
              · simp only [List.length_cons] at *
                omega


theorem unescapeBasicAux_eq_of_length : ∀ l : List Char,
    (unescapeBasicAux 0 l).length = l.length → unescapeBasicAux 0 l = l := by
  intro l
  induction l with
  | nil => intro _; rfl
  | cons c t ih =>
    intro h
    have i3 := unescapeBasicAux_length_le t 3
    have i4 := unescapeBasicAux_length_le t 4
    have i5 := unescapeBasicAux_length_le t 5
    simp only [unescapeBasicAux] at h ⊢
    split at h
    · rename_i hp
      have hlen := (List.isPrefixOf_iff_prefix.mp hp).length_le
      simp only [List.length_cons] at *
      omega
    · split at h
      · rename_i hp
        have hlen := (List.isPrefixOf_iff_prefix.mp hp).length_le
        simp only [List.length_cons] at *
        omega
      · split at h
        · rename_i hp
          have hlen := (List.isPrefixOf_iff_prefix.mp hp).length_le
          simp only [List.length_cons] at *
          omega
        · split at h
          · rename_i hp
            have hlen := (List.isPrefixOf_iff_prefix.mp hp).length_le
            simp only [List.length_cons] at *
            omega
          · split at h
            · rename_i hp
              have hlen := (List.isPrefixOf_iff_prefix.mp hp).length_le
              simp only [List.length_cons] at *
              omega
            · rename_i h1 h2 h3 h4 h5
              simp only [List.length_cons, Nat.add_right_cancel_iff] at h
              simp only [h1, h2, h3, h4, h5, if_false, ih h]
              simp

theorem unescapeBasic_length_le (t : String) :
    (unescapeBasic t).data.length ≤ t.data.length := by
  have := unescapeBasicAux_length_le t.data 0
  simpa [unescapeBasic] using this

theorem unescapeBasic_eq_of_length (t : String)
    (h : (unescapeBasic t).data.length = t.data.length) : unescapeBasic t = t := by
  unfold unescapeBasic at h ⊢
  rw [unescapeBasicAux_eq_of_length t.data h]

/-- C7, as the code has it. Cleaning the cleaned text gives the same text
exactly when nothing is left to clean in it: no `<` followed later by a `>`,
none of the references `&lt;`, `&gt;`, `&amp;`, and `html.UnescapeString` returns
it unchanged. `html.UnescapeString` enters through two facts: it never returns
a longer text, and a text it returns with the same length is unchanged. -/
theorem C7_clean_idempotent_iff (unescape : String → String)
    (hlen : ∀ t : String, (unescape t).data.length ≤ t.data.length)
    (hfix : ∀ t : String, (unescape t).data.length = t.data.length → unescape t = t)
    (s : String) :
    (Chamado.ofContent ((Chamado.ofContent s).GetCleanContent unescape)).GetCleanContent unescape
        = (Chamado.ofContent s).GetCleanContent unescape
      ↔ isClean unescape ((Chamado.ofContent s).GetCleanContent unescape) := by
  constructor
  · intro h
    exact isClean_of_clean_fixed unescape hlen hfix _ h
  · intro h
    apply clean_fixed_of_isClean unescape _ h
    rw [getCleanContent_eq]
    exact trimSpaceChars_idem _

/-- C7, with the reference unescaping, at the escaped markup
`&lt;p&gt;oi&lt;/p&gt;`: it is cleaned to `oi`, in which nothing is left to clean,
and cleaning `oi` gives `oi`. -/
theorem C7_clean_idempotent_iff_witness :
    ((Chamado.ofContent ((Chamado.ofContent "&lt;p&gt;oi&lt;/p&gt;").GetCleanContent
          unescapeBasic)).GetCleanContent unescapeBasic
        = (Chamado.ofContent "&lt;p&gt;oi&lt;/p&gt;").GetCleanContent unescapeBasic
      ↔ isClean unescapeBasic
          ((Chamado.ofContent "&lt;p&gt;oi&lt;/p&gt;").GetCleanContent unescapeBasic))
      ∧ (Chamado.ofContent "&lt;p&gt;oi&lt;/p&gt;").GetCleanContent unescapeBasic = "oi"
      ∧ isClean unescapeBasic "oi"
      ∧ (Chamado.ofContent "oi").GetCleanContent unescapeBasic = "oi" :=
  ⟨C7_clean_idempotent_iff unescapeBasic unescapeBasic_length_le unescapeBasic_eq_of_length
      "&lt;p&gt;oi&lt;/p&gt;",
    by decide, by decide, by decide⟩

/-! ## Dates -/

theorem isDigit_digitChar (d : Nat) (h : d < 10) : isDigit (digitChar d) = true := by
  interval_cases d <;> rfl

theorem digitVal_digitChar (d : Nat) (h : d < 10) : digitVal (digitChar d) = d := by
  interval_cases d <;> rfl

theorem digitChar_ne (d : Nat) (h : d < 10) (c : Char) (hc : isDigit c = false) :
    digitChar d ≠ c := by
  intro e
  rw [← e, isDigit_digitChar d h] at hc
  cases hc

theorem getYear_pad4 (Y : Nat) (rest : List Char) (h : Y < 10000) :
    getYear (pad4 Y ++ rest) = some (Y, rest) := by
  have h3 : Y / 1000 % 10 < 10 := Nat.mod_lt _ (by decide)
  have h2 : Y / 100 % 10 < 10 := Nat.mod_lt _ (by decide)
  have h1 : Y / 10 % 10 < 10 := Nat.mod_lt _ (by decide)
  have h0 : Y % 10 < 10 := Nat.mod_lt _ (by decide)
  simp only [pad4, List.cons_append, List.nil_append, getYear, isDigit_digitChar, h3, h2, h1, h0,
    digitVal_digitChar, and_self, if_true, Option.some.injEq, Prod.mk.injEq, and_true]
  omega

theorem getnum_pad2 (b : Bool) (n : Nat) (rest : List Char) (h : n < 100) :
    getnum b (pad2 n ++ rest) = some (n, rest) := by
  have h1 : n / 10 % 10 < 10 := Nat.mod_lt _ (by decide)
  have h0 : n % 10 < 10 := Nat.mod_lt _ (by decide)
  simp only [pad2, List.cons_append, List.nil_append, getnum, isDigit_digitChar, h1, h0,
    digitVal_digitChar, if_true, Option.some.injEq, Prod.mk.injEq, and_true]
  omega


theorem pad2_cons (n : Nat) (rest : List Char) :
    pad2 n ++ rest = digitChar (n / 10 % 10) :: digitChar (n % 10) :: rest := rfl

theorem skipLit_space_pad2 (n : Nat) (rest : List Char) :
    skipLit ' ' (' ' :: (pad2 n ++ rest)) = some (pad2 n ++ rest) := by
  have hd : digitChar (n / 10 % 10) ≠ ' ' :=
    digitChar_ne _ (Nat.mod_lt _ (by decide)) ' ' (by decide)
  simp [skipLit, pad2_cons, List.dropWhile_cons, hd]

theorem skipLit_self (p : Char) (rest : List Char) (hp : p ≠ ' ') :
    skipLit p (p :: rest) = some rest := by
  simp [skipLit, hp]

theorem skipLit_sep (sep : Char) (n : Nat) (rest : List Char) :
    skipLit sep (sep :: (pad2 n ++ rest)) = some (pad2 n ++ rest) := by
  by_cases hs : sep = ' '
  · subst hs; exact skipLit_space_pad2 n rest
  · exact skipLit_self sep _ hs

theorem dropWhile_isDigit_digits (ds : List Nat) (hds : ∀ d ∈ ds, d < 10) (z : List Char)
    (hz : ∀ c t, z = c :: t → isDigit c = false) :
    (ds.map digitChar ++ z).dropWhile isDigit = z := by
  induction ds with
  | nil =>
    cases z with
    | nil => rfl
    | cons c t => simp [List.dropWhile_cons, hz c t rfl]
  | cons d ds ih =>
    have hd := isDigit_digitChar d (hds d (by simp))
    simp only [List.map_cons, List.cons_append, List.dropWhile_cons, hd, if_true]
    exact ih (fun x hx => hds x (List.mem_cons_of_mem _ hx))

theorem zoneChars_head (zone : ZoneText) :
    ∀ c t, zoneChars zone = c :: t → isDigit c = false ∧ c ≠ '.' ∧ c ≠ ',' := by
  intro c t h
  cases zone with
  | utc =>
    simp only [zoneChars, List.cons.injEq] at h
    rw [← h.1]; decide
  | offset plus zh zm =>
    cases plus <;>
    · simp only [zoneChars, List.cons.injEq] at h
      rw [← h.1]; decide

theorem skipFraction_zone (frac : List Nat) (hf : ∀ d ∈ frac, d < 10) (zone : ZoneText) :
    skipFraction (fractionChars frac ++ zoneChars zone) = zoneChars zone := by
  cases frac with
  | nil =>
    cases zone with
    | utc => rfl
    | offset plus zh zm => cases plus <;> simp [fractionChars, zoneChars, skipFraction, pad2_cons]
  | cons d ds =>
    have hd := isDigit_digitChar d (hf d (by simp))
    simp only [fractionChars, List.cons_append, skipFraction, hd, true_or, and_self, if_true]
    exact dropWhile_isDigit_digits ds (fun x hx => hf x (List.mem_cons_of_mem _ hx)) _
      (fun c t h => (zoneChars_head zone c t h).1)

theorem getZone_zoneChars (zone : ZoneText) (hz : zone.valid) :
    ∃ off, getZone (zoneChars zone) = some (off, []) := by
  cases zone with
  | utc => exact ⟨none, rfl⟩
  | offset plus zh zm =>
    obtain ⟨h1, h2⟩ := hz
    have a1 : zh / 10 % 10 < 10 := Nat.mod_lt _ (by decide)
    have a0 : zh % 10 < 10 := Nat.mod_lt _ (by decide)
    have b1 : zm / 10 % 10 < 10 := Nat.mod_lt _ (by decide)
    have b0 : zm % 10 < 10 := Nat.mod_lt _ (by decide)
    have hh : ¬ (zh / 10 % 10 * 10 + zh % 10 > 24 ∨ zm / 10 % 10 * 10 + zm % 10 > 60) := by
      omega
    cases plus
    · refine ⟨some (-(((zh / 10 % 10 * 10 + zh % 10) * 60 + (zm / 10 % 10 * 10 + zm % 10)) * 60 : Nat)), ?_⟩
      simp [zoneChars, pad2, getZone, getOffset, isDigit_digitChar, digitVal_digitChar, a1, a0, b1,
        b0, hh]
    · refine ⟨some ((((zh / 10 % 10 * 10 + zh % 10) * 60 + (zm / 10 % 10 * 10 + zm % 10)) * 60 : Nat)), ?_⟩
      simp [zoneChars, pad2, getZone, getOffset, isDigit_digitChar, digitVal_digitChar, a1, a0, b1,
        b0, hh]

theorem parseDate_chars (Y M D : Nat) (rest : List Char) (hY : Y < 10000) (hM1 : 1 ≤ M)
    (hM : M ≤ 12) (hD : D < 100) :
    parseDate (pad4 Y ++ ('-' :: (pad2 M ++ ('-' :: (pad2 D ++ rest)))))
      = some ((Y, M, D), rest) := by
  have hm : ¬ (M = 0 ∨ 12 < M) := by omega
  simp only [parseDate, getYear_pad4 Y _ hY, Option.some_bind, skipLit_self '-' _ (by decide),
    getnum_pad2 true M _ (by omega), hm, if_false, getnum_pad2 true D _ hD]

theorem parseClock_chars (h mi s : Nat) (tail : List Char) (hh : h < 24) (hmi : mi < 60)
    (hs : s < 60) :
    parseClock (pad2 h ++ (':' :: (pad2 mi ++ (':' :: (pad2 s ++ tail)))))
      = some ((h, mi, s), skipFraction tail) := by
  have h1 : ¬ 24 ≤ h := by omega
  have h2 : ¬ 60 ≤ mi := by omega
  have h3 : ¬ 60 ≤ s := by omega
  simp only [parseClock, getnum_pad2 false h _ (by omega), Option.some_bind, h1, if_false,
    skipLit_self ':' _ (by decide), getnum_pad2 true mi _ (by omega), h2,
    getnum_pad2 true s _ (by omega), h3]

theorem daysIn_le (M Y : Nat) : daysIn M Y ≤ 31 := by
  unfold daysIn
  split
  · split <;> omega
  · split <;> omega

theorem timeParse_sql (Y M D h mi s : Nat) (hv : validDateTime Y M D h mi s) :
    timeParse Layout.sqlDateTime (sqlDateText Y M D h mi s) = some ⟨Y, M, D, h, mi, s, none⟩ := by
  obtain ⟨hY, hM1, hM, hD1, hD, hh, hmi, hs⟩ := hv
  have hD100 : D < 100 := by have := daysIn_le M Y; omega
  have hd : ¬ (D < 1 ∨ D > daysIn M Y) := by omega
  simp only [timeParse, sqlDateText, dateTimeChars, timeParseChars,
    parseDate_chars Y M D _ hY hM1 hM hD100, Option.some_bind, if_true, skipLit_sep,
    parseClock_chars h mi s _ hh hmi hs, skipFraction, ne_eq, not_true_eq_false, if_false, hd]

theorem timeParse_rfc (Y M D h mi s : Nat) (frac : List Nat) (zone : ZoneText)
    (hv : validDateTime Y M D h mi s) (hf : ∀ d ∈ frac, d < 10) (hz : zone.valid) :
    ∃ off, timeParse Layout.rfc3339 (rfc3339Text Y M D h mi s frac zone)
      = some ⟨Y, M, D, h, mi, s, off⟩ := by
  obtain ⟨hY, hM1, hM, hD1, hD, hh, hmi, hs⟩ := hv
  have hD100 : D < 100 := by have := daysIn_le M Y; omega
  have hd : ¬ (D < 1 ∨ D > daysIn M Y) := by omega
  obtain ⟨off, hoff⟩ := getZone_zoneChars zone hz
  refine ⟨off, ?_⟩
  have hl : (Layout.rfc3339 = Layout.sqlDateTime) = False := by simp
  simp only [timeParse, rfc3339Text, dateTimeChars, timeParseChars,
    parseDate_chars Y M D _ hY hM1 hM hD100, Option.some_bind, hl, if_false, skipLit_sep,
    parseClock_chars h mi s _ hh hmi hs, skipFraction_zone frac hf zone, hoff, ne_eq,
    not_true_eq_false, hd]

theorem timeParse_sql_of_rfc (Y M D h mi s : Nat) (frac : List Nat) (zone : ZoneText)
    (hv : validDateTime Y M D h mi s) :
    timeParse Layout.sqlDateTime (rfc3339Text Y M D h mi s frac zone) = none := by
  obtain ⟨hY, hM1, hM, hD1, hD, hh, hmi, hs⟩ := hv
  have hD100 : D < 100 := by have := daysIn_le M Y; omega
  simp [timeParse, rfc3339Text, dateTimeChars, timeParseChars,
    parseDate_chars Y M D _ hY hM1 hM hD100, skipLit]

theorem timeParse_rfc_of_sql (Y M D h mi s : Nat) (hv : validDateTime Y M D h mi s) :
    timeParse Layout.rfc3339 (sqlDateText Y M D h mi s) = none := by
  obtain ⟨hY, hM1, hM, hD1, hD, hh, hmi, hs⟩ := hv
  have hD100 : D < 100 := by have := daysIn_le M Y; omega
  simp [timeParse, sqlDateText, dateTimeChars, timeParseChars,
    parseDate_chars Y M D _ hY hM1 hM hD100, skipLit]

theorem format_fields (Y M D h mi s : Nat) (off : Option Int) :
    (Time.mk Y M D h mi s off).Format = displayText Y M D h mi := rfl


/-- C9. `GetFormattedDate`, on tickets and on followups, displays every text in
the layout `YYYY-MM-DD HH:MM:SS` and every RFC 3339 text (with or without a
fraction of a second, with the zone `Z` or a numeric offset) that denotes a date
and a time of day as `DD/MM/YY HH:MM`, built from the fields of the text itself; a text
that parses under neither layout is returned unchanged; and the two texts
`2024-01-30T10:00:00-03:00` and `2024-01-30 10:00:00` give `30/01/24 10:00`. -/
theorem C9_formatted_date :
    (∀ (Y M D h mi s : Nat) (c : Chamado) (f : TicketFollowup),
        validDateTime Y M D h mi s → c.Date = sqlDateText Y M D h mi s →
        f.Date = sqlDateText Y M D h mi s →
        c.GetFormattedDate = displayText Y M D h mi
          ∧ f.GetFormattedDate = displayText Y M D h mi)
      ∧ (∀ (Y M D h mi s : Nat) (frac : List Nat) (zone : ZoneText) (c : Chamado)
          (f : TicketFollowup),
        validDateTime Y M D h mi s → (∀ d ∈ frac, d < 10) → zone.valid →
        c.Date = rfc3339Text Y M D h mi s frac zone →
        f.Date = rfc3339Text Y M D h mi s frac zone →
        c.GetFormattedDate = displayText Y M D h mi
          ∧ f.GetFormattedDate = displayText Y M D h mi)
      ∧ (∀ c : Chamado, timeParse Layout.sqlDateTime c.Date = none →
          timeParse Layout.rfc3339 c.Date = none → c.GetFormattedDate = c.Date)
      ∧ (∀ f : TicketFollowup, timeParse Layout.sqlDateTime f.Date = none →
          timeParse Layout.rfc3339 f.Date = none → f.GetFormattedDate = f.Date)
      ∧ (Chamado.ofDate "2024-01-30T10:00:00-03:00").GetFormattedDate = "30/01/24 10:00"
      ∧ (Chamado.ofDate "2024-01-30 10:00:00").GetFormattedDate = "30/01/24 10:00"
      ∧ (TicketFollowup.ofDate "2024-01-30T10:00:00-03:00").GetFormattedDate = "30/01/24 10:00"
      ∧ (TicketFollowup.ofDate "2024-01-30 10:00:00").GetFormattedDate = "30/01/24 10:00" := by
  refine ⟨?_, ?_, ?_, ?_, by decide, by decide, by decide, by decide⟩
  · intro Y M D h mi s c f hv hc hf
    have h1 := timeParse_sql Y M D h mi s hv
    have h2 := timeParse_rfc_of_sql Y M D h mi s hv
    constructor
    · simp only [Chamado.GetFormattedDate, hc, h1, format_fields]
    · simp only [TicketFollowup.GetFormattedDate, hf, h1, h2, format_fields]
  · intro Y M D h mi s frac zone c f hv hfr hz hc hf
    obtain ⟨off, h1⟩ := timeParse_rfc Y M D h mi s frac zone hv hfr hz
    have h2 := timeParse_sql_of_rfc Y M D h mi s frac zone hv
    constructor
    · simp only [Chamado.GetFormattedDate, hc, h1, h2, format_fields]
    · simp only [TicketFollowup.GetFormattedDate, hf, h1, format_fields]
  · intro c h1 h2
    simp only [Chamado.GetFormattedDate, h1, h2]
  · intro f h1 h2
    simp only [TicketFollowup.GetFormattedDate, h1, h2]

/-- C9, at 29 February 2024, 23:59:58, in both layouts, the RFC 3339 text with
the fraction `.25` and the offset `-03:00`. -/
theorem C9_formatted_date_witness :
    sqlDateText 2024 2 29 23 59 58 = "2024-02-29 23:59:58"
      ∧ rfc3339Text 2024 2 29 23 59 58 [2, 5] (ZoneText.offset false 3 0)
        = "2024-02-29T23:59:58.25-03:00"
      ∧ displayText 2024 2 29 23 59 = "29/02/24 23:59"
      ∧ ((Chamado.ofDate "2024-02-29 23:59:58").GetFormattedDate = displayText 2024 2 29 23 59
        ∧ (TicketFollowup.ofDate "2024-02-29 23:59:58").GetFormattedDate
          = displayText 2024 2 29 23 59)
      ∧ ((Chamado.ofDate "2024-02-29T23:59:58.25-03:00").GetFormattedDate
          = displayText 2024 2 29 23 59
        ∧ (TicketFollowup.ofDate "2024-02-29T23:59:58.25-03:00").GetFormattedDate
          = displayText 2024 2 29 23 59) :=
  ⟨by decide, by decide, by decide,
    C9_formatted_date.1 2024 2 29 23 59 58 (Chamado.ofDate "2024-02-29 23:59:58")
      (TicketFollowup.ofDate "2024-02-29 23:59:58") (by decide) (by decide) (by decide),
    C9_formatted_date.2.1 2024 2 29 23 59 58 [2, 5] (ZoneText.offset false 3 0)
      (Chamado.ofDate "2024-02-29T23:59:58.25-03:00")
      (TicketFollowup.ofDate "2024-02-29T23:59:58.25-03:00") (by decide) (by decide) (by decide)
      (by decide) (by decide)⟩

/-! ## The client operations that need a token -/

/-- C11. With an empty token, `GetTickets`, `GetTicketActors`,
`GetTicketFollowups`, `CreateTicketFollowup` and `GetMyID` each return an error,
send no HTTP request and leave the client (token and user id) as it was. -/
theorem C11_token_required (c : Client) (http : Transport) (codec : Codec) (ticketID : Int)
    (content : String) (h : c.Token = "") :
    ((c.GetTickets http codec).err = some "client não autenticado: token vazio"
        ∧ (c.GetTickets http codec).sent = [] ∧ (c.GetTickets http codec).client = c)
      ∧ ((c.GetTicketActors http codec ticketID).err = some "client não autenticado"
        ∧ (c.GetTicketActors http codec ticketID).sent = []
        ∧ (c.GetTicketActors http codec ticketID).client = c)
      ∧ ((c.GetTicketFollowups http codec ticketID).err = some "client não autenticado"
        ∧ (c.GetTicketFollowups http codec ticketID).sent = []
        ∧ (c.GetTicketFollowups http codec ticketID).client = c)
      ∧ ((c.CreateTicketFollowup http codec ticketID content).err = some "client não autenticado"
        ∧ (c.CreateTicketFollowup http codec ticketID content).sent = []
        ∧ (c.CreateTicketFollowup http codec ticketID content).client = c)
      ∧ ((c.GetMyID http codec).err = some "client não autenticado"
        ∧ (c.GetMyID http codec).sent = [] ∧ (c.GetMyID http codec).client = c) := by
  simp [Client.GetTickets, Client.GetTicketActors, Client.GetTicketFollowups,
    Client.CreateTicketFollowup, Client.GetMyID, h]

/-- C11, at a client that has not logged in. -/
theorem C11_token_required_witness :
    ((anonymousClient.GetTickets okTransport plainCodec).err
          = some "client não autenticado: token vazio"
        ∧ (anonymousClient.GetTickets okTransport plainCodec).sent = []
        ∧ (anonymousClient.GetTickets okTransport plainCodec).client = anonymousClient)
      ∧ ((anonymousClient.GetTicketActors okTransport plainCodec 7).err
          = some "client não autenticado"
        ∧ (anonymousClient.GetTicketActors okTransport plainCodec 7).sent = []
        ∧ (anonymousClient.GetTicketActors okTransport plainCodec 7).client = anonymousClient)
      ∧ ((anonymousClient.GetTicketFollowups okTransport plainCodec 7).err
          = some "client não autenticado"
        ∧ (anonymousClient.GetTicketFollowups okTransport plainCodec 7).sent = []
        ∧ (anonymousClient.GetTicketFollowups okTransport plainCodec 7).client = anonymousClient)
      ∧ ((anonymousClient.CreateTicketFollowup okTransport plainCodec 7 "oi").err
          = some "client não autenticado"
        ∧ (anonymousClient.CreateTicketFollowup okTransport plainCodec 7 "oi").sent = []
        ∧ (anonymousClient.CreateTicketFollowup okTransport plainCodec 7 "oi").client
          = anonymousClient)
      ∧ ((anonymousClient.GetMyID okTransport plainCodec).err = some "client não autenticado"
        ∧ (anonymousClient.GetMyID okTransport plainCodec).sent = []
        ∧ (anonymousClient.GetMyID okTransport plainCodec).client = anonymousClient) :=
  C11_token_required anonymousClient okTransport plainCodec 7 "oi" rfl

/-- C16. When `GetTicketActors` fails, the command of `fetchActorsCmd` yields a
`ticketActorsLoadedMsg` with the same ticket id and an empty, non-nil list; when
it succeeds, the message carries the id and the list the client returned; it
never yields an `errMsg`. The same holds for `fetchFollowupsCmd` and
`GetTicketFollowups`. -/
theorem C16_fetch_failures_swallowed (c : Client) (http : Transport) (codec : Codec) (id : Int) :
    ((c.GetTicketActors http codec id).err ≠ none →
        fetchActorsCmd c http codec id = Msg.ticketActorsLoadedMsg id (some []))
      ∧ ((c.GetTicketActors http codec id).err = none →
        fetchActorsCmd c http codec id
          = Msg.ticketActorsLoadedMsg id (c.GetTicketActors http codec id).value)
      ∧ (∀ e, fetchActorsCmd c http codec id ≠ Msg.errMsg e)
      ∧ ((c.GetTicketFollowups http codec id).err ≠ none →
        fetchFollowupsCmd c http codec id = Msg.ticketFollowupsLoadedMsg id (some []))
      ∧ ((c.GetTicketFollowups http codec id).err = none →
        fetchFollowupsCmd c http codec id
          = Msg.ticketFollowupsLoadedMsg id (c.GetTicketFollowups http codec id).value)
      ∧ (∀ e, fetchFollowupsCmd c http codec id ≠ Msg.errMsg e) := by
  refine ⟨?_, ?_, ?_, ?_, ?_, ?_⟩
  · intro h
    cases he : (c.GetTicketActors http codec id).err with
    | none => exact absurd he h
    | some e => simp only [fetchActorsCmd, he]
  · intro h
    simp only [fetchActorsCmd, h]
  · intro e
    cases he : (c.GetTicketActors http codec id).err <;> simp [fetchActorsCmd, he]
  · intro h
    cases he : (c.GetTicketFollowups http codec id).err with
    | none => exact absurd he h
    | some e => simp only [fetchFollowupsCmd, he]
  · intro h
    simp only [fetchFollowupsCmd, h]
  · intro e
    cases he : (c.GetTicketFollowups http codec id).err <;> simp [fetchFollowupsCmd, he]

/-- C16, at a client whose transport is down: both commands yield the empty,
non-nil list for ticket 7. -/
theorem C16_fetch_failures_swallowed_witness :
    fetchActorsCmd loggedClient downTransport plainCodec 7
        = Msg.ticketActorsLoadedMsg 7 (some [])
      ∧ fetchFollowupsCmd loggedClient downTransport plainCodec 7
        = Msg.ticketFollowupsLoadedMsg 7 (some []) :=
  ⟨(C16_fetch_failures_swallowed loggedClient downTransport plainCodec 7).1 (by decide),
    (C16_fetch_failures_swallowed loggedClient downTransport plainCodec 7).2.2.2.1 (by decide)⟩

/-! ## Composing mode and the refresh key -/

/-- C13. In composing mode a key other than `esc` and `ctrl+s` goes to the text
box only: the selected ticket, the list, `refreshing`, `loading` and `err` stay
as they were, `responding` stays true, and the command returned is nil or the
command of the text box, never a command of the program or `tea.Quit`. -/
theorem C13_composing_excludes_navigation (lib : Lib) (m : model) (s : String)
    (hresp : m.responding = true) (h1 : s ≠ "esc") (h2 : s ≠ "ctrl+s") :
    ∃ r, model.Update lib m (Msg.KeyMsg s) = some r
      ∧ r.1 = { m with textarea := (lib.textareaUpdate m.textarea (Msg.KeyMsg s)).1 }
      ∧ r.1.chamadoSelecionado = m.chamadoSelecionado ∧ r.1.list = m.list
      ∧ r.1.refreshing = m.refreshing ∧ r.1.loading = m.loading ∧ r.1.err = m.err
      ∧ r.1.responding = true
      ∧ (r.2 = TeaCmd.nil ∨ ∃ tag, r.2 = TeaCmd.single (Cmd.widget tag))
      ∧ ¬ r.2.issues Cmd.Quit
      ∧ (∀ t e, ¬ r.2.issues (Cmd.assignToMeCmd t e))
      ∧ (∀ t x, ¬ r.2.issues (Cmd.createFollowupCmd t x))
      ∧ (∀ t, ¬ r.2.issues (Cmd.fetchActorsCmd t))
      ∧ (∀ t, ¬ r.2.issues (Cmd.fetchFollowupsCmd t))
      ∧ ¬ r.2.issues Cmd.fetchTicketsCmd ∧ ¬ r.2.issues Cmd.fetchMyIDCmd
      ∧ ¬ r.2.issues Cmd.performLoginCmd := by
  refine ⟨({ m with textarea := (lib.textareaUpdate m.textarea (Msg.KeyMsg s)).1 },
    TeaCmd.ofOption (widgetCmd (lib.textareaUpdate m.textarea (Msg.KeyMsg s)).2)), ?_, rfl, rfl,
    rfl, rfl, rfl, rfl, hresp, ?_⟩
  · rw [update_resp lib m _ hresp]
    simp [updateResponding, h1, h2]
  · cases (lib.textareaUpdate m.textarea (Msg.KeyMsg s)).2 <;>
      simp [widgetCmd, TeaCmd.ofOption, TeaCmd.issues]

/-- C13, at the keys `a` and `ctrl+c` in a composing model. -/
theorem C13_composing_excludes_navigation_witness :
    ∃ r, model.Update idleLib composingEmpty (Msg.KeyMsg "ctrl+c") = some r
      ∧ r.1.chamadoSelecionado = composingEmpty.chamadoSelecionado
      ∧ r.1.responding = true ∧ ¬ r.2.issues Cmd.Quit := by
  obtain ⟨r, hu, -, hsel, -, -, -, -, hresp, -, hq, -⟩ :=
    C13_composing_excludes_navigation idleLib composingEmpty "ctrl+c" rfl (by decide) (by decide)
  exact ⟨r, hu, hsel, hresp, hq⟩

/-- C15. In navigation mode with a ticket selected, the key `u` with
`refreshing` false sets `refreshing` and returns the one command that fetches
the followups of the selected ticket; with `refreshing` true it returns no
command that fetches followups and leaves `refreshing` and the selected ticket
as they were. -/
theorem C15_refresh_guarded (lib : Lib) (m : model) (c : Chamado)
    (hnav : m.responding = false) (hsel : m.chamadoSelecionado = some c) :
    (m.refreshing = false →
        model.Update lib m (Msg.KeyMsg "u")
          = some ({ m with refreshing := true }, TeaCmd.single (Cmd.fetchFollowupsCmd c.ID)))
      ∧ (m.refreshing = true →
        ∃ r, model.Update lib m (Msg.KeyMsg "u") = some r
          ∧ r.1.refreshing = true ∧ r.1.chamadoSelecionado = some c
          ∧ ∀ id, ¬ r.2.issues (Cmd.fetchFollowupsCmd id)) := by
  constructor
  · intro hr
    rw [update_nav lib m _ hnav]
    simp [updateNavigating, navSwitch, hsel, hr]
  · intro hr
    refine ⟨_, update_nav lib m _ hnav, ?_, ?_, ?_⟩
    · simp [updateNavigating, navSwitch, hsel, hr, defaultLogic]
    · simp [updateNavigating, navSwitch, hsel, hr, defaultLogic]
    · intro id
      cases hx : (lib.viewportUpdate m.viewport (Msg.KeyMsg "u")).2 <;>
        simp [updateNavigating, navSwitch, hsel, hr, defaultLogic, TeaCmd.issues, widgetCmd, hx]

/-- C15, at ticket 7 with no refresh under way. -/
theorem C15_refresh_guarded_witness :
    model.Update idleLib viewingTicket (Msg.KeyMsg "u")
      = some ({ viewingTicket with refreshing := true },
          TeaCmd.single (Cmd.fetchFollowupsCmd 7)) :=
  (C15_refresh_guarded idleLib viewingTicket ⟨7, "T", "", "", ⟨1, ""⟩, 1, ⟨4, "E"⟩, none, none⟩
    rfl rfl).1 rfl

/-- C12 fails in composing mode: with ticket 7 selected and the reply box open,
the actors and the followups that arrive for ticket 7 are handed to the text box
and dropped; the ticket keeps nil actors and followups and `refreshing` stays
true. -/
theorem C12_results_dropped_while_composing :
    model.Update idleLib composingWaiting
        (Msg.ticketActorsLoadedMsg 7 (some [⟨5, "ana", "User", "requester"⟩]))
        = some (composingWaiting, TeaCmd.nil)
      ∧ model.Update idleLib composingWaiting
        (Msg.ticketFollowupsLoadedMsg 7 (some [TicketFollowup.ofID 3]))
        = some (composingWaiting, TeaCmd.nil)
      ∧ composingWaiting.chamadoSelecionado
        = some ⟨7, "T", "", "", ⟨1, ""⟩, 1, ⟨4, "E"⟩, none, none⟩
      ∧ composingWaiting.refreshing = true := by
  decide

/-- C17 fails at `a<br />b`: the followup cleaning has no replacement for
`<br />` and removes it as a tag, where the ticket cleaning puts a newline. -/
theorem C17_followup_clean_differs :
    (TicketFollowup.ofContent "a<br />b").GetCleanContent unescapeBasic = "ab"
      ∧ (Chamado.ofContent "a<br />b").GetCleanContent unescapeBasic = "a\nb"
      ∧ (TicketFollowup.ofContent "a<br />b").GetCleanContent unescapeBasic
        ≠ (Chamado.ofContent "a<br />b").GetCleanContent unescapeBasic := by
  decide

/-! ## A reply is always a reply to a selected ticket -/

theorem renderChamadoDetalhes_responding (lib : Lib) (m : model) :
    (model.renderChamadoDetalhes lib m).responding = m.responding := by
  unfold model.renderChamadoDetalhes
  split <;> rfl

theorem listStep_responding (lib : Lib) (m : model) (cmds : List (Option Cmd)) (msg : Msg) :
    (listStep lib m cmds msg).1.responding = m.responding := by
  unfold listStep
  split <;> rfl

theorem selectTicket_responding (lib : Lib) (m : model) (cmds : List (Option Cmd)) (msg : Msg) :
    (selectTicket lib m cmds msg).1.responding = m.responding := by
  cases msg with
  | KeyMsg s =>
    by_cases hc : s = "enter" ∧ ¬ m.loading
    · cases hi : lib.listSelectedItem m.list with
      | none => simp [selectTicket, hc, hi]
      | some i => simp [selectTicket, hc, hi, renderChamadoDetalhes_responding]
    · simp only [selectTicket, hc, if_false]
  | _ => rfl

theorem defaultLogic_responding (lib : Lib) (m : model) (cmds : List (Option Cmd)) (msg : Msg) :
    (defaultLogic lib m cmds msg).1.responding = m.responding := by
  cases hsel : m.chamadoSelecionado with
  | some c => simp [defaultLogic, hsel]
  | none =>
    have hd : (defaultLogic lib m cmds msg).1
        = (selectTicket lib (listStep lib m cmds msg).1 (listStep lib m cmds msg).2 msg).1 := by
      simp [defaultLogic, hsel]
    rw [hd, selectTicket_responding, listStep_responding]

theorem navSwitch_responding (lib : Lib) (m : model) (msg : Msg) :
    (navSwitch lib m msg).model.responding = m.responding
      ∨ ∃ c, (navSwitch lib m msg).model.chamadoSelecionado = some c := by
  cases msg with
  | KeyMsg s =>
    by_cases h1 : s = "ctrl+c"
    · left; simp [navSwitch, h1, Flow.model]
    by_cases h2 : s = "esc"
    · left; cases hsel : m.chamadoSelecionado <;> simp [navSwitch, h2, hsel, Flow.model]
    by_cases h3 : s = "a"
    · left
      cases hsel : m.chamadoSelecionado with
      | none => simp [navSwitch, h3, hsel, Flow.model]
      | some c => by_cases hid : m.client.UserID = 0 <;> simp [navSwitch, h3, hsel, hid, Flow.model]
    by_cases h4 : s = "r"
    · cases hsel : m.chamadoSelecionado with
      | none => left; simp [navSwitch, h4, hsel, Flow.model]
      | some c => right; exact ⟨c, by simp [navSwitch, h4, hsel, Flow.model]⟩
    by_cases h5 : s = "u"
    · left
      cases hsel : m.chamadoSelecionado with
      | none => simp [navSwitch, h5, hsel, Flow.model]
      | some c => cases hr : m.refreshing <;> simp [navSwitch, h5, hsel, hr, Flow.model]
    · left; simp [navSwitch, h1, h2, h3, h4, h5, Flow.model]
  | WindowSizeMsg w hh => left; simp [navSwitch, Flow.model]
  | loginSuccessMsg => left; simp [navSwitch, Flow.model]
  | ticketsLoadedMsg ts => left; simp [navSwitch, Flow.model]
  | ticketActorsLoadedMsg id a =>
    left
    cases hsel : m.chamadoSelecionado with
    | none => simp [navSwitch, hsel, Flow.model]
    | some c =>
      by_cases hid : c.ID = id <;>
        simp [navSwitch, hsel, hid, Flow.model, renderChamadoDetalhes_responding]
  | ticketFollowupsLoadedMsg id f =>
    left
    cases hsel : m.chamadoSelecionado with
    | none => simp [navSwitch, hsel, Flow.model]
    | some c =>
      by_cases hid : c.ID = id <;>
        simp [navSwitch, hsel, hid, Flow.model, renderChamadoDetalhes_responding]
  | followupCreatedMsg =>
    left; cases hsel : m.chamadoSelecionado <;> simp [navSwitch, hsel, Flow.model]
  | assignedSuccessMsg =>
    left; cases hsel : m.chamadoSelecionado <;> simp [navSwitch, hsel, Flow.model]
  | errMsg e1 => left; simp [navSwitch, Flow.model]
  | spinnerTickMsg tag => left; cases hl : m.loading <;> simp [navSwitch, hl, Flow.model]
  | otherMsg tag => left; simp [navSwitch, Flow.model]

theorem update_respSel (lib : Lib) (m : model) (msg : Msg) (r : model × TeaCmd)
    (hu : model.Update lib m msg = some r)
    (h : m.responding = true → ∃ c, m.chamadoSelecionado = some c) :
    r.1.responding = true → ∃ c, r.1.chamadoSelecionado = some c := by
  intro hr
  cases hresp : m.responding with
  | true =>
    rw [update_resp lib m _ hresp] at hu
    rw [updateResponding_sel lib m msg r hu]
    exact h hresp
  | false =>
    rw [update_nav lib m _ hresp] at hu
    cases hu
    cases hf : navSwitch lib m msg with
    | ret m1 cmd =>
      simp only [updateNavigating, hf] at hr ⊢
      rcases navSwitch_responding lib m msg with hn | hn
      · rw [hf] at hn
        simp only [Flow.model] at hn
        rw [hn, hresp] at hr
        cases hr
      · rw [hf] at hn
        exact hn
    | next m1 cmds =>
      simp only [updateNavigating, hf] at hr ⊢
      rw [defaultLogic_responding] at hr
      rcases navSwitch_responding lib m msg with hn | hn
      · rw [hf] at hn
        simp only [Flow.model] at hn
        rw [hn, hresp] at hr
        cases hr
      · rw [hf] at hn
        obtain ⟨c, hc⟩ := hn
        exact ⟨c, defaultLogic_sel_some lib m1 cmds msg c hc⟩

theorem reachable_respSel (lib : Lib) (m : model) (h : Reachable lib m) :
    m.responding = true → ∃ c, m.chamadoSelecionado = some c := by
  induction h with
  | init client => intro hr; cases hr
  | step m m1 _ hs ih =>
    cases hs with
    | update msg _ cmd hu => exact update_respSel lib _ msg _ hu ih
    | client c => exact ih

theorem reachable_runMsgs (lib : Lib) (msgs : List Msg) (m m2 : model) (h : Reachable lib m)
    (hr : runMsgs lib m msgs = some m2) : Reachable lib m2 := by
  induction msgs generalizing m with
  | nil =>
    simp only [runMsgs, Option.some.injEq] at hr
    subst hr
    exact h
  | cons msg rest ih =>
    cases hu : model.Update lib m msg with
    | none => simp [runMsgs, hu] at hr
    | some r =>
      simp only [runMsgs, hu] at hr
      exact ih r.1 (Reachable.step m r.1 h (Step.update m msg r.1 r.2 hu)) hr

theorem updateResponding_total (lib : Lib) (m : model) (msg : Msg) (c : Chamado)
    (hc : m.chamadoSelecionado = some c) : ∃ r, updateResponding lib m msg = some r := by
  cases h : updateResponding lib m msg with
  | some r => exact ⟨r, rfl⟩
  | none =>
    exfalso
    cases msg with
    | KeyMsg s =>
      by_cases h1 : s = "esc"
      · simp [updateResponding, h1] at h
      by_cases h2 : s = "ctrl+s"
      · by_cases h3 : m.textarea.Value = ""
        · simp [updateResponding, h2, h3] at h
        · simp [updateResponding, h2, h3, hc] at h
      · simp [updateResponding, h1, h2] at h
    | _ => simp [updateResponding] at h

/-- C18. In every state reachable from `InitialModel` in which `responding` is
true a ticket is selected; so no message makes `Update` dereference a nil
ticket, and `ctrl+s` on a non-empty buffer returns the create-followup command
with the id of the selected ticket and the text of the buffer. -/
theorem C18_composing_has_ticket (lib : Lib) (m : model) (hm : Reachable lib m)
    (hresp : m.responding = true) :
    ∃ c, m.chamadoSelecionado = some c
      ∧ (∀ msg, ∃ r, model.Update lib m msg = some r)
      ∧ (m.textarea.Value ≠ "" →
          model.Update lib m (Msg.KeyMsg "ctrl+s")
            = some ({ m with responding := false, textarea := m.textarea.Reset },
                TeaCmd.single (Cmd.createFollowupCmd c.ID m.textarea.Value))) := by
  obtain ⟨c, hc⟩ := reachable_respSel lib m hm hresp
  refine ⟨c, hc, ?_, ?_⟩
  · intro msg
    rw [update_resp lib m _ hresp]
    exact updateResponding_total lib m msg c hc
  · intro hne
    rw [update_resp lib m _ hresp]
    simp [updateResponding, hne, hc]

theorem runMsgs_replyMsgs :
    runMsgs typingLib (InitialModel loggedClient) replyMsgs = some composingReached := by
  decide

/-- C18, at the model reached by selecting ticket 7, opening the reply box and
typing `ok`: `ctrl+s` returns the command that creates the followup `ok` on
ticket 7. -/
theorem C18_composing_has_ticket_witness :
    ∃ c, composingReached.chamadoSelecionado = some c
      ∧ (∀ msg, ∃ r, model.Update typingLib composingReached msg = some r)
      ∧ (composingReached.textarea.Value ≠ "" →
          model.Update typingLib composingReached (Msg.KeyMsg "ctrl+s")
            = some ({ composingReached with
                  responding := false, textarea := composingReached.textarea.Reset },
                TeaCmd.single (Cmd.createFollowupCmd c.ID composingReached.textarea.Value))) :=
  C18_composing_has_ticket typingLib composingReached
    (reachable_runMsgs typingLib replyMsgs _ _ (Reachable.init loggedClient) runMsgs_replyMsgs)
    rfl

/-! ## Actors and followups may arrive in either order -/

theorem nav_actors_step (lib : Lib) (m : model) (c : Chamado) (id : Int)
    (actors : Slice TicketActor) (hsel : m.chamadoSelecionado = some c)
    (hva : ∀ v, (lib.viewportUpdate v (Msg.ticketActorsLoadedMsg id actors)).1.content = v.content
      ∧ (lib.viewportUpdate v (Msg.ticketActorsLoadedMsg id actors)).1.Width = v.Width) :
    (updateNavigating lib m (Msg.ticketActorsLoadedMsg id actors)).1.responding = m.responding
      ∧ (updateNavigating lib m (Msg.ticketActorsLoadedMsg id actors)).1.refreshing = m.refreshing
      ∧ (updateNavigating lib m (Msg.ticketActorsLoadedMsg id actors)).1.viewport.Width
        = m.viewport.Width
      ∧ (c.ID = id →
        (updateNavigating lib m (Msg.ticketActorsLoadedMsg id actors)).1.chamadoSelecionado
            = some { c with Actors := actors }
          ∧ (updateNavigating lib m (Msg.ticketActorsLoadedMsg id actors)).1.viewport.content
            = detailContent lib m.viewport.Width { c with Actors := actors })
      ∧ (c.ID ≠ id →
        (updateNavigating lib m (Msg.ticketActorsLoadedMsg id actors)).1.chamadoSelecionado
            = some c
          ∧ (updateNavigating lib m (Msg.ticketActorsLoadedMsg id actors)).1.viewport.content
            = m.viewport.content) := by
  by_cases hid : c.ID = id
  · subst hid
    simp [updateNavigating, navSwitch, hsel, defaultLogic, model.renderChamadoDetalhes,
      Viewport.SetContent, hva]
  · simp [updateNavigating, navSwitch, hsel, hid, defaultLogic, hva]

theorem nav_followups_step (lib : Lib) (m : model) (c : Chamado) (id : Int)
    (followups : Slice TicketFollowup) (hsel : m.chamadoSelecionado = some c)
    (hvf : ∀ v,
      (lib.viewportUpdate v (Msg.ticketFollowupsLoadedMsg id followups)).1.content = v.content
      ∧ (lib.viewportUpdate v (Msg.ticketFollowupsLoadedMsg id followups)).1.Width = v.Width) :
    (updateNavigating lib m (Msg.ticketFollowupsLoadedMsg id followups)).1.responding
        = m.responding
      ∧ (updateNavigating lib m (Msg.ticketFollowupsLoadedMsg id followups)).1.viewport.Width
        = m.viewport.Width
      ∧ (c.ID = id →
        (updateNavigating lib m (Msg.ticketFollowupsLoadedMsg id followups)).1.chamadoSelecionado
            = some { c with Followups := some (sortFollowups followups.elems) }
          ∧ (updateNavigating lib m (Msg.ticketFollowupsLoadedMsg id followups)).1.refreshing
            = false
          ∧ (updateNavigating lib m (Msg.ticketFollowupsLoadedMsg id followups)).1.viewport.content
            = detailContent lib m.viewport.Width
                { c with Followups := some (sortFollowups followups.elems) })
      ∧ (c.ID ≠ id →
        (updateNavigating lib m (Msg.ticketFollowupsLoadedMsg id followups)).1.chamadoSelecionado
            = some c
          ∧ (updateNavigating lib m (Msg.ticketFollowupsLoadedMsg id followups)).1.refreshing
            = m.refreshing
          ∧ (updateNavigating lib m (Msg.ticketFollowupsLoadedMsg id followups)).1.viewport.content
            = m.viewport.content) := by
  by_cases hid : c.ID = id
  · subst hid
    simp [updateNavigating, navSwitch, hsel, defaultLogic, model.renderChamadoDetalhes,
      Viewport.SetContent, hvf]
  · simp [updateNavigating, navSwitch, hsel, hid, defaultLogic, hvf]


theorem runMsgs_two_nav (lib : Lib) (m : model) (m1 m2 : Msg) (hnav : m.responding = false)
    (h1 : (updateNavigating lib m m1).1.responding = false) :
    runMsgs lib m [m1] = some (updateNavigating lib m m1).1
      ∧ runMsgs lib m [m1, m2]
        = some (updateNavigating lib (updateNavigating lib m m1).1 m2).1 := by
  simp [runMsgs, update_nav lib m _ hnav, update_nav lib _ _ h1]

/-- C14. In navigation mode with a ticket selected, handling an actors result
and then a followups result leaves the same selected ticket (actors and
followups), the same `refreshing` flag and the same detail text as handling
them in the other order; the actors handler leaves the followups and
`refreshing` as they were, and the followups handler leaves the actors as they
were. The viewport widget, which receives both messages after the handlers, is
taken not to change its content or width on them. -/
theorem C14_results_order_insensitive (lib : Lib) (m : model) (c : Chamado) (ida idf : Int)
    (actors : Slice TicketActor) (followups : Slice TicketFollowup)
    (hnav : m.responding = false) (hsel : m.chamadoSelecionado = some c)
    (hva : ∀ v,
      (lib.viewportUpdate v (Msg.ticketActorsLoadedMsg ida actors)).1.content = v.content
      ∧ (lib.viewportUpdate v (Msg.ticketActorsLoadedMsg ida actors)).1.Width = v.Width)
    (hvf : ∀ v,
      (lib.viewportUpdate v (Msg.ticketFollowupsLoadedMsg idf followups)).1.content = v.content
      ∧ (lib.viewportUpdate v (Msg.ticketFollowupsLoadedMsg idf followups)).1.Width = v.Width) :
    ∃ ma mf maf mfa,
      runMsgs lib m [Msg.ticketActorsLoadedMsg ida actors] = some ma
      ∧ runMsgs lib m [Msg.ticketFollowupsLoadedMsg idf followups] = some mf
      ∧ runMsgs lib m [Msg.ticketActorsLoadedMsg ida actors,
          Msg.ticketFollowupsLoadedMsg idf followups] = some maf
      ∧ runMsgs lib m [Msg.ticketFollowupsLoadedMsg idf followups,
          Msg.ticketActorsLoadedMsg ida actors] = some mfa
      ∧ maf.chamadoSelecionado = mfa.chamadoSelecionado
      ∧ maf.refreshing = mfa.refreshing
      ∧ maf.viewport.content = mfa.viewport.content
      ∧ ma.refreshing = m.refreshing
      ∧ (∃ ca, ma.chamadoSelecionado = some ca ∧ ca.Followups = c.Followups)
      ∧ (∃ cf, mf.chamadoSelecionado = some cf ∧ cf.Actors = c.Actors) := by
  obtain ⟨a1, a2, a3, a4, a5⟩ := nav_actors_step lib m c ida actors hsel hva
  obtain ⟨f1, f3, f4, f5⟩ := nav_followups_step lib m c idf followups hsel hvf
  rw [hnav] at a1 f1
  obtain ⟨r1, r2⟩ := runMsgs_two_nav lib m (Msg.ticketActorsLoadedMsg ida actors)
    (Msg.ticketFollowupsLoadedMsg idf followups) hnav a1
  obtain ⟨r3, r4⟩ := runMsgs_two_nav lib m (Msg.ticketFollowupsLoadedMsg idf followups)
    (Msg.ticketActorsLoadedMsg ida actors) hnav f1
  refine ⟨_, _, _, _, r1, r3, r2, r4, ?_⟩
  by_cases ea : c.ID = ida
  · obtain ⟨sa, ca⟩ := a4 ea
    by_cases ef : c.ID = idf
    · obtain ⟨sf, rf, cf⟩ := f4 ef
      obtain ⟨-, -, g4, -⟩ := nav_followups_step lib _ _ idf followups sa hvf
      obtain ⟨gs, gr, gc⟩ := g4 ef
      obtain ⟨-, k2, -, k4, -⟩ := nav_actors_step lib _ _ ida actors sf hva
      obtain ⟨ks, kc⟩ := k4 ea
      refine ⟨?_, ?_, ?_, a2, ⟨_, sa, rfl⟩, ⟨_, sf, rfl⟩⟩
      · rw [gs, ks]
      · rw [gr, k2, rf]
      · rw [gc, kc, a3, f3]
    · obtain ⟨sf, rf, cf⟩ := f5 ef
      obtain ⟨-, -, -, g5⟩ := nav_followups_step lib _ _ idf followups sa hvf
      obtain ⟨gs, gr, gc⟩ := g5 ef
      obtain ⟨-, k2, -, k4, -⟩ := nav_actors_step lib _ _ ida actors sf hva
      obtain ⟨ks, kc⟩ := k4 ea
      refine ⟨?_, ?_, ?_, a2, ⟨_, sa, rfl⟩, ⟨_, sf, rfl⟩⟩
      · rw [gs, ks]
      · rw [gr, k2, rf, a2]
      · rw [gc, kc, ca, f3]
  · obtain ⟨sa, ca⟩ := a5 ea
    by_cases ef : c.ID = idf
    · obtain ⟨sf, rf, cf⟩ := f4 ef
      obtain ⟨-, -, g4, -⟩ := nav_followups_step lib _ _ idf followups sa hvf
      obtain ⟨gs, gr, gc⟩ := g4 ef
      obtain ⟨-, k2, -, -, k5⟩ := nav_actors_step lib _ _ ida actors sf hva
      obtain ⟨ks, kc⟩ := k5 ea
      refine ⟨?_, ?_, ?_, a2, ⟨_, sa, rfl⟩, ⟨_, sf, rfl⟩⟩
      · rw [gs, ks]
      · rw [gr, k2, rf]
      · rw [gc, kc, cf, a3]
    · obtain ⟨sf, rf, cf⟩ := f5 ef
      obtain ⟨-, -, -, g5⟩ := nav_followups_step lib _ _ idf followups sa hvf
      obtain ⟨gs, gr, gc⟩ := g5 ef
      obtain ⟨-, k2, -, -, k5⟩ := nav_actors_step lib _ _ ida actors sf hva
      obtain ⟨ks, kc⟩ := k5 ea
      refine ⟨?_, ?_, ?_, a2, ⟨_, sa, rfl⟩, ⟨_, sf, rfl⟩⟩
      · rw [gs, ks]
      · rw [gr, k2, rf, a2]
      · rw [gc, kc, ca, cf]

/-- C14, at ticket 7 with the actors and the followups of ticket 7 arriving. -/
theorem C14_results_order_insensitive_witness :
    ∃ ma mf maf mfa,
      runMsgs idleLib viewingTicket
          [Msg.ticketActorsLoadedMsg 7 (some [⟨5, "ana", "User", "requester"⟩])] = some ma
      ∧ runMsgs idleLib viewingTicket
          [Msg.ticketFollowupsLoadedMsg 7 (some [TicketFollowup.ofID 1, TicketFollowup.ofID 2])]
        = some mf
      ∧ runMsgs idleLib viewingTicket
          [Msg.ticketActorsLoadedMsg 7 (some [⟨5, "ana", "User", "requester"⟩]),
            Msg.ticketFollowupsLoadedMsg 7 (some [TicketFollowup.ofID 1, TicketFollowup.ofID 2])]
        = some maf
      ∧ runMsgs idleLib viewingTicket
          [Msg.ticketFollowupsLoadedMsg 7 (some [TicketFollowup.ofID 1, TicketFollowup.ofID 2]),
            Msg.ticketActorsLoadedMsg 7 (some [⟨5, "ana", "User", "requester"⟩])]
        = some mfa
      ∧ maf.chamadoSelecionado = mfa.chamadoSelecionado
      ∧ maf.refreshing = mfa.refreshing
      ∧ maf.viewport.content = mfa.viewport.content
      ∧ ma.refreshing = viewingTicket.refreshing
      ∧ (∃ ca, ma.chamadoSelecionado = some ca
          ∧ ca.Followups = (⟨7, "T", "", "", ⟨1, ""⟩, 1, ⟨4, "E"⟩, none, none⟩ : Chamado).Followups)
      ∧ (∃ cf, mf.chamadoSelecionado = some cf
          ∧ cf.Actors = (⟨7, "T", "", "", ⟨1, ""⟩, 1, ⟨4, "E"⟩, none, none⟩ : Chamado).Actors) :=
  C14_results_order_insensitive idleLib viewingTicket
    ⟨7, "T", "", "", ⟨1, ""⟩, 1, ⟨4, "E"⟩, none, none⟩ 7 7
    (some [⟨5, "ana", "User", "requester"⟩])
    (some [TicketFollowup.ofID 1, TicketFollowup.ofID 2]) rfl rfl
    (fun _ => ⟨rfl, rfl⟩) (fun _ => ⟨rfl, rfl⟩)

/-! ## Results that arrive in composing mode -/

theorem update_results_navigating (lib : Lib) (m : model) (c : Chamado)
    (actors : Slice TicketActor) (followups : Slice TicketFollowup)
    (hnav : m.responding = false) (hsel : m.chamadoSelecionado = some c) :
    (∃ r, model.Update lib m (Msg.ticketActorsLoadedMsg c.ID actors) = some r
        ∧ r.1.chamadoSelecionado = some { c with Actors := actors })
      ∧ (∃ r, model.Update lib m (Msg.ticketFollowupsLoadedMsg c.ID followups) = some r
        ∧ r.1.chamadoSelecionado
          = some { c with Followups := some (sortFollowups followups.elems) }
        ∧ r.1.refreshing = false) := by
  constructor
  · refine ⟨_, update_nav lib m _ hnav, ?_⟩
    simp [updateNavigating, navSwitch, hsel, defaultLogic, model.renderChamadoDetalhes]
  · refine ⟨_, update_nav lib m _ hnav, ?_⟩
    simp [updateNavigating, navSwitch, hsel, defaultLogic, model.renderChamadoDetalhes]

theorem update_results_composing (lib : Lib) (m : model) (id : Int)
    (actors : Slice TicketActor) (followups : Slice TicketFollowup)
    (hresp : m.responding = true) :
    (∃ r, model.Update lib m (Msg.ticketActorsLoadedMsg id actors) = some r
        ∧ r.1.chamadoSelecionado = m.chamadoSelecionado ∧ r.1.refreshing = m.refreshing)
      ∧ (∃ r, model.Update lib m (Msg.ticketFollowupsLoadedMsg id followups) = some r
        ∧ r.1.chamadoSelecionado = m.chamadoSelecionado ∧ r.1.refreshing = m.refreshing) := by
  constructor
  · obtain ⟨r, hr⟩ : ∃ r, updateResponding lib m (Msg.ticketActorsLoadedMsg id actors) = some r :=
      ⟨_, rfl⟩
    refine ⟨r, by rw [update_resp lib m _ hresp, hr], updateResponding_sel lib m _ r hr, ?_⟩
    simp only [updateResponding, Option.some.injEq] at hr
    subst hr; rfl
  · obtain ⟨r, hr⟩ :
        ∃ r, updateResponding lib m (Msg.ticketFollowupsLoadedMsg id followups) = some r :=
      ⟨_, rfl⟩
    refine ⟨r, by rw [update_resp lib m _ hresp, hr], updateResponding_sel lib m _ r hr, ?_⟩
    simp only [updateResponding, Option.some.injEq] at hr
    subst hr; rfl

end Glpi
